import Mathlib

/-!
# nvshm IPC control plane (`drivers/staging/nvshm/nvshm_ipc.c`)

A shallow embedding of `ipc_readconfig`, `init_interfaces`, `cleanup_interfaces`,
`ipc_work`, `nvshm_ipc_handler`, `nvshm_register_ipc`, `nvshm_unregister_ipc` and
`nvshm_generate_ipc`, and theorems about them.

Conventions of the embedding.

* A C `int` / `u32` value is represented by its 32-bit two's-complement bit
  pattern, a `Nat` below `2 ^ 32`.  The operators `~` and `>>` on `int` are
  `int_not` and `int_sar` below; `&` and `^` are `&&&` and `^^^` on the bit patterns.
* Pointers are 32-bit addresses (`Nat` below `2 ^ 32`), the width of the `unsigned int`
  that the source casts them to; `0` is `NULL`.  Adding an offset to a pointer is
  `ptr_add`, which wraps at `2 ^ 32` (so an offset of any extension, zero or sign, gives
  the same address).
* The shared memory that one run reads is a snapshot `shmem`: the word at
  `mb_base_virt` and the `struct nvshm_config` at `mb_base_virt + NVSHM_CONFIG_OFFSET`.
* The headers (`nvshm_priv.h`, `nvshm_ipc.h`, ...) are outside this development, so
  the constants they define are the fields of `Defs`, and the functions of the
  other compilation units (`nvshm_abort_queue`, `nvshm_tty_init`, ...) are the fields
  of `Collab`: arbitrary transformers of the handle they receive.
* Every call, to a collaborator or to a static function of this file, is recorded
  in the `trace` of the `State`, in program order.
* The registration functions return their calls to the kernel and to the hardware link
  as a list of `KCall`, in program order, next to the return value and the handle.
* `pr_debug` / `pr_warn` / `pr_err` only write to the kernel log and are left out.
-/

namespace Nvshm

/-! ## Constants of the missing headers -/

/-- The constants that `nvshm_ipc.c` takes from its headers.  The two `nodup` fields are
the C rule that the `case` labels of one `switch` are pairwise different; the bound on
`NVSHM_MAX_CHANNELS` is what lets the `int` loop counter reach it. -/
structure Defs where
  NVSHM_CONFIG_OFFSET : Nat
  NVSHM_CONFIG_VERSION : Nat
  NVSHM_MAX_CHANNELS : Nat
  CONFIG_TEGRA_BASEBAND_SIMU : Bool
  NVSHM_CHAN_UNMAP : Nat
  NVSHM_CHAN_TTY : Nat
  NVSHM_CHAN_LOG : Nat
  NVSHM_CHAN_NET : Nat
  NVSHM_IPC_READY : Nat
  NVSHM_IPC_BOOT_FW_REQ : Nat
  NVSHM_IPC_BOOT_RESTART_FW_REQ : Nat
  NVSHM_IPC_BOOT_ERROR_BT2_HDR : Nat
  NVSHM_IPC_BOOT_ERROR_BT2_SIGN : Nat
  NVSHM_IPC_BOOT_ERROR_HWID : Nat
  NVSHM_IPC_BOOT_ERROR_APP_HDR : Nat
  NVSHM_IPC_BOOT_ERROR_APP_SIGN : Nat
  NVSHM_IPC_BOOT_ERROR_UNLOCK_HEADER : Nat
  NVSHM_IPC_BOOT_ERROR_UNLOCK_SIGN : Nat
  NVSHM_IPC_BOOT_ERROR_UNLOCK_PCID : Nat
  NVSHM_IPC_BOOT_COLD_BOOT_IND : Nat
  NVSHM_IPC_BOOT_FW_CONF : Nat
  max_channels_int : NVSHM_MAX_CHANNELS < 2 ^ 31
  chan_cases_nodup : [NVSHM_CHAN_TTY, NVSHM_CHAN_LOG, NVSHM_CHAN_NET].Nodup
  ipc_cases_nodup :
    [NVSHM_IPC_READY, NVSHM_IPC_BOOT_FW_REQ, NVSHM_IPC_BOOT_RESTART_FW_REQ,
     NVSHM_IPC_BOOT_ERROR_BT2_HDR, NVSHM_IPC_BOOT_ERROR_BT2_SIGN,
     NVSHM_IPC_BOOT_ERROR_HWID, NVSHM_IPC_BOOT_ERROR_APP_HDR,
     NVSHM_IPC_BOOT_ERROR_APP_SIGN, NVSHM_IPC_BOOT_ERROR_UNLOCK_HEADER,
     NVSHM_IPC_BOOT_ERROR_UNLOCK_SIGN, NVSHM_IPC_BOOT_ERROR_UNLOCK_PCID,
     NVSHM_IPC_BOOT_COLD_BOOT_IND, NVSHM_IPC_BOOT_FW_CONF].Nodup

/-! ## Data model -/

/-- One entry of the channel map, `struct nvshm_chan_map`: `type` is read from shared
memory, so it is any 32-bit value, not only one of the four `NVSHM_CHAN_*`. -/
structure nvshm_chan_map where
  type : Nat
  name : String
deriving DecidableEq, Repr, Inhabited

/-- The fields of `struct nvshm_channel` that this file writes. -/
structure nvshm_channel where
  index : Nat
  map : nvshm_chan_map
deriving DecidableEq, Repr, Inhabited

/-- The configuration block, `struct nvshm_config`; `chan_map` is the array
`chan_map[NVSHM_MAX_CHANNELS]`. -/
structure nvshm_config where
  version : Nat
  shmem_size : Nat
  region_ap_desc_offset : Nat
  region_ap_desc_size : Nat
  region_ap_data_offset : Nat
  region_ap_data_size : Nat
  queue_bb_offset : Nat
  queue_ap_offset : Nat
  chan_map : List nvshm_chan_map
deriving DecidableEq, Repr, Inhabited

/-- The fields of `struct nvshm_handle` that this file reads or writes; `chan` is the
array `chan[NVSHM_MAX_CHANNELS]`, `conf` the address of the configuration block,
`wq_name` the characters before the terminating NUL, `nvshm_wq` and `tegra_bb` the
addresses of the workqueue and of the hardware link, and `nvshm_work` is `some ()` once
`INIT_WORK` has bound `ipc_work` to the work item. -/
structure nvshm_handle where
  mb_base_virt : Nat
  ipc_base_virt : Nat
  ipc_size : Nat
  desc_base_virt : Nat
  desc_size : Nat
  data_base_virt : Nat
  data_size : Nat
  shared_queue_head : Nat
  shared_queue_tail : Nat
  chan : List nvshm_channel
  conf : Nat
  configured : Nat
  old_status : Nat
  «instance» : Nat := 0
  wq_name : List Char := []
  nvshm_wq : Nat := 0
  nvshm_work : Option Unit := none
  tegra_bb : Nat := 0
deriving DecidableEq, Repr, Inhabited

/-- What one run reads from the shared memory: the `int` at `mb_base_virt` (its 32-bit
pattern) and the configuration block at `mb_base_virt + NVSHM_CONFIG_OFFSET`. -/
structure shmem where
  mailbox : Nat
  conf : nvshm_config
deriving DecidableEq, Repr, Inhabited

/-- The functions called by the code of this file. -/
inductive Call where
  | ipc_readconfig
  | nvshm_iobuf_init
  | nvshm_init_queue
  | init_interfaces
  | cleanup_interfaces
  | nvshm_tty_init
  | nvshm_net_init
  | nvshm_tty_cleanup
  | nvshm_net_cleanup
  | nvshm_abort_queue
  | nvshm_process_queue
deriving DecidableEq, Repr, Inhabited

/-- The functions of the other compilation units, by their effect on the handle.
`nvshm_tty_cleanup` and `nvshm_net_cleanup` take no argument in C and reach the
handle through the driver's global. -/
structure Collab where
  nvshm_abort_queue : nvshm_handle → nvshm_handle
  nvshm_process_queue : nvshm_handle → nvshm_handle
  nvshm_iobuf_init : nvshm_handle → nvshm_handle
  nvshm_init_queue : nvshm_handle → nvshm_handle
  nvshm_tty_init : nvshm_handle → nvshm_handle
  nvshm_net_init : nvshm_handle → nvshm_handle
  nvshm_tty_cleanup : nvshm_handle → nvshm_handle
  nvshm_net_cleanup : nvshm_handle → nvshm_handle

/-- The list of the eight collaborators. -/
def Collab.all (C : Collab) : List (nvshm_handle → nvshm_handle) :=
  [C.nvshm_abort_queue, C.nvshm_process_queue, C.nvshm_iobuf_init, C.nvshm_init_queue,
   C.nvshm_tty_init, C.nvshm_net_init, C.nvshm_tty_cleanup, C.nvshm_net_cleanup]

/-- No collaborator writes the field (or view) `f` of the handle. -/
def Collab.preserves {α : Type} (C : Collab) (f : nvshm_handle → α) : Prop :=
  ∀ g ∈ C.all, ∀ h, f (g h) = f h

/-- The handle and the calls made so far, oldest first. -/
structure State where
  handle : nvshm_handle
  trace : List Call
deriving DecidableEq, Repr, Inhabited

/-- A call of `g`, recorded as `ev`. -/
def State.call (s : State) (ev : Call) (g : nvshm_handle → nvshm_handle) : State :=
  { handle := g s.handle, trace := s.trace ++ [ev] }

/-! ## 32-bit `int` operators -/

/-- Bit pattern of `~x` for a 32-bit `int`. -/
def int_not (x : Nat) : Nat := (2 ^ 32 - 1 - x % 2 ^ 32)

/-- Bit pattern of `x >> n` for a signed 32-bit `int` and `0 < n < 32`: an arithmetic
shift, the sign bit fills the `n` upper bits. -/
def int_sar (x n : Nat) : Nat :=
  if x % 2 ^ 32 < 2 ^ 31 then (x % 2 ^ 32) >>> n
  else ((x % 2 ^ 32) >>> n) ||| (2 ^ 32 - 2 ^ (32 - n))

/-- The signed value of a 32-bit pattern (two's complement). -/
def int_val (x : Nat) : Int :=
  if x % 2 ^ 32 < 2 ^ 31 then ((x % 2 ^ 32 : Nat) : Int)
  else ((x % 2 ^ 32 : Nat) : Int) - 2 ^ 32

/-- The address `p + off` for a 32-bit pointer `p` and an integer offset `off`: the sum
wraps at `2 ^ 32`. -/
def ptr_add (p off : Nat) : Nat := (p + off) % 2 ^ 32

/-- The value tested at line 190: `((~new_state >> 16) ^ (cmd)) & 0xFFFF`. -/
def ipc_check (new_state cmd : Nat) : Nat :=
  ((int_sar (int_not new_state) 16) ^^^ cmd) &&& 0xFFFF

/-! ## The functions of `nvshm_ipc.c` -/

/-- The loop of `ipc_readconfig` (lines 89-96): entry `chan` of the table gets its own
index and a copy of `conf->chan_map[chan]`. -/
def readconfig_chan (K : Defs) (conf : nvshm_config) (table : List nvshm_channel) :
    List nvshm_channel :=
  (List.range K.NVSHM_MAX_CHANNELS).foldl
    (fun t chan => t.set chan { index := chan, map := conf.chan_map.getD chan default })
    table

/-- The function `ipc_readconfig`: the return value and the handle afterwards. -/
def ipc_readconfig (K : Defs) (mem : shmem) (handle : nvshm_handle) : Int × nvshm_handle :=
  let conf := mem.conf
  if conf.version ≠ K.NVSHM_CONFIG_VERSION then
    (-1, handle)
  else
    let handle := { handle with
      desc_base_virt := ptr_add handle.ipc_base_virt conf.region_ap_desc_offset }
    let handle := { handle with desc_size := conf.region_ap_desc_size }
    let handle := { handle with
      data_base_virt := ptr_add handle.ipc_base_virt conf.region_ap_data_offset }
    let handle := { handle with data_size := conf.region_ap_data_size }
    let handle :=
      if K.CONFIG_TEGRA_BASEBAND_SIMU then
        { handle with
          shared_queue_head := ptr_add handle.ipc_base_virt conf.queue_ap_offset }
      else
        { handle with
          shared_queue_head := ptr_add handle.ipc_base_virt conf.queue_bb_offset }
    let handle := { handle with
      shared_queue_tail := ptr_add handle.ipc_base_virt conf.queue_ap_offset }
    let handle := { handle with chan := readconfig_chan K conf handle.chan }
    let handle := { handle with
      conf := ptr_add handle.mb_base_virt K.NVSHM_CONFIG_OFFSET }
    let handle := { handle with configured := 1 }
    (0, handle)

/-- The three counters of `init_interfaces` and `cleanup_interfaces`. -/
structure chan_counts where
  nlog : Nat
  ntty : Nat
  nnet : Nat
deriving DecidableEq, Repr, Inhabited

/-- The body of the counting loop: the `switch` on the type of one channel. -/
def count_chan (K : Defs) (n : chan_counts) (type : Nat) : chan_counts :=
  if type = K.NVSHM_CHAN_TTY then { n with ntty := n.ntty + 1 }
  else if type = K.NVSHM_CHAN_LOG then { n with nlog := n.nlog + 1 }
  else if type = K.NVSHM_CHAN_NET then { n with nnet := n.nnet + 1 }
  else n

/-- The counting loop `for (chan = 0; chan < NVSHM_MAX_CHANNELS; chan++)`. -/
def count_channels (K : Defs) (handle : nvshm_handle) : chan_counts :=
  (List.range K.NVSHM_MAX_CHANNELS).foldl
    (fun n chan => count_chan K n (handle.chan.getD chan default).map.type)
    { nlog := 0, ntty := 0, nnet := 0 }

/-- The function `init_interfaces` (it returns 0 in every case). -/
def init_interfaces (K : Defs) (C : Collab) (s : State) : State :=
  let s : State := { s with trace := s.trace ++ [Call.init_interfaces] }
  let n := count_channels K s.handle
  let s := if n.ntty ≠ 0 then s.call Call.nvshm_tty_init C.nvshm_tty_init else s
  let s := if n.nnet ≠ 0 then s.call Call.nvshm_net_init C.nvshm_net_init else s
  s

/-- The function `cleanup_interfaces` (it returns 0 in every case). -/
def cleanup_interfaces (K : Defs) (C : Collab) (s : State) : State :=
  let s : State := { s with trace := s.trace ++ [Call.cleanup_interfaces] }
  let s : State := { s with handle := { s.handle with configured := 0 } }
  let n := count_channels K s.handle
  let s := if n.ntty ≠ 0 then s.call Call.nvshm_tty_cleanup C.nvshm_tty_cleanup else s
  let s := if n.nnet ≠ 0 then s.call Call.nvshm_net_cleanup C.nvshm_net_cleanup else s
  s

/-- The call `ipc_readconfig(handle)` of `ipc_work`: the return value is dropped. -/
def call_readconfig (K : Defs) (mem : shmem) (s : State) : State :=
  { handle := (ipc_readconfig K mem s.handle).2,
    trace := s.trace ++ [Call.ipc_readconfig] }

/-- The assignment `handle->old_status = cmd`. -/
def State.set_old_status (s : State) (cmd : Nat) : State :=
  { s with handle := { s.handle with old_status := cmd } }

/-- The function `ipc_work`, one run of the worker. -/
def ipc_work (K : Defs) (C : Collab) (mem : shmem) (s : State) : State :=
  let new_state := mem.mailbox
  let cmd := new_state &&& 0xFFFF
  if ipc_check new_state cmd ≠ 0 then
    if s.handle.configured ≠ 0 then
      let s := s.call Call.nvshm_abort_queue C.nvshm_abort_queue
      cleanup_interfaces K C s
    else s
  else if cmd = K.NVSHM_IPC_READY then
    let s :=
      if cmd = s.handle.old_status then
        s.call Call.nvshm_process_queue C.nvshm_process_queue
      else
        let s := call_readconfig K mem s
        let s := s.call Call.nvshm_iobuf_init C.nvshm_iobuf_init
        let s := s.call Call.nvshm_init_queue C.nvshm_init_queue
        init_interfaces K C s
    s.set_old_status cmd
  else
    let s :=
      if cmd = K.NVSHM_IPC_BOOT_FW_REQ ∨ cmd = K.NVSHM_IPC_BOOT_RESTART_FW_REQ then
        if s.handle.configured ≠ 0 then
          let s := s.call Call.nvshm_abort_queue C.nvshm_abort_queue
          cleanup_interfaces K C s
        else s
      else if cmd = K.NVSHM_IPC_BOOT_ERROR_BT2_HDR ∨ cmd = K.NVSHM_IPC_BOOT_ERROR_BT2_SIGN
          ∨ cmd = K.NVSHM_IPC_BOOT_ERROR_HWID ∨ cmd = K.NVSHM_IPC_BOOT_ERROR_APP_HDR
          ∨ cmd = K.NVSHM_IPC_BOOT_ERROR_APP_SIGN
          ∨ cmd = K.NVSHM_IPC_BOOT_ERROR_UNLOCK_HEADER
          ∨ cmd = K.NVSHM_IPC_BOOT_ERROR_UNLOCK_SIGN
          ∨ cmd = K.NVSHM_IPC_BOOT_ERROR_UNLOCK_PCID then
        s
      else if cmd = K.NVSHM_IPC_BOOT_COLD_BOOT_IND ∨ cmd = K.NVSHM_IPC_BOOT_FW_CONF then
        s
      else
        s
    s.set_old_status cmd

/-- Consecutive runs of the worker, one per snapshot of the shared memory. -/
def ipc_runs (K : Defs) (C : Collab) (mems : List shmem) (s : State) : State :=
  mems.foldl (fun s mem => ipc_work K C mem s) s

/-! ## Properties of a sequence of runs -/

/-- In every run of the sequence (the first one starting from `h`, each later one from
the handle the previous run left), `nvshm_process_queue` is called only if the run
starts with `configured` set. -/
def process_only_configured (K : Defs) (C : Collab) : List shmem → nvshm_handle → Prop
  | [], _ => True
  | mem :: mems, h =>
    (Call.nvshm_process_queue ∈ (ipc_work K C mem ⟨h, []⟩).trace → h.configured ≠ 0)
    ∧ process_only_configured K C mems (ipc_work K C mem ⟨h, []⟩).handle

/-- In every run of the sequence, a fresh negotiation (`ipc_readconfig`,
`init_interfaces`) is made only if the run starts with `configured` clear. -/
def negotiation_only_unconfigured (K : Defs) (C : Collab) :
    List shmem → nvshm_handle → Prop
  | [], _ => True
  | mem :: mems, h =>
    ((Call.ipc_readconfig ∈ (ipc_work K C mem ⟨h, []⟩).trace
        ∨ Call.init_interfaces ∈ (ipc_work K C mem ⟨h, []⟩).trace) → h.configured = 0)
    ∧ negotiation_only_unconfigured K C mems (ipc_work K C mem ⟨h, []⟩).handle

/-- Between two calls of `a` in the trace `t` there is a call of `b`: `a` is never
called twice without an intervening `b`. -/
def never_twice_without (a b : Call) (t : List Call) : Prop :=
  ∀ pre mid post : List Call, t = pre ++ a :: (mid ++ a :: post) → b ∈ mid

/-- One step of a scan that checks `never_twice_without a b`: `some up` says whether an
`a` was seen with no `b` after it, `none` that a second `a` came in that situation. -/
def flag_step (a b : Call) (st : Option Bool) (e : Call) : Option Bool :=
  match st with
  | none => none
  | some up =>
    if e = a then (if up then none else some true)
    else if e = b then some false
    else some up

/-- The adapter calls of `init_interfaces` for the counters `n`. -/
def adapter_init_calls (n : chan_counts) : List Call :=
  (if n.ntty ≠ 0 then [Call.nvshm_tty_init] else [])
    ++ (if n.nnet ≠ 0 then [Call.nvshm_net_init] else [])

/-- The adapter calls of `cleanup_interfaces` for the counters `n`. -/
def adapter_cleanup_calls (n : chan_counts) : List Call :=
  (if n.ntty ≠ 0 then [Call.nvshm_tty_cleanup] else [])
    ++ (if n.nnet ≠ 0 then [Call.nvshm_net_cleanup] else [])

/-! ## Registration, teardown and the outbound signal -/

/-- The callback argument of `tegra_bb_register_ipc`. -/
inductive ipc_callback where
  | NULL
  | nvshm_ipc_handler
deriving DecidableEq, Repr, Inhabited

/-- The context argument of `tegra_bb_register_ipc`: `NULL` or the handle itself. -/
inductive ipc_context where
  | NULL
  | handle
deriving DecidableEq, Repr, Inhabited

/-- The kernel and hardware-link operations called by `nvshm_ipc_handler`,
`nvshm_register_ipc`, `nvshm_unregister_ipc` and `nvshm_generate_ipc`, with their
arguments. -/
inductive KCall where
  | queue_work (wq : Nat)
  | create_singlethread_workqueue (name : List Char)
  | tegra_bb_register_ipc (bb : Nat) (cb : ipc_callback) (data : ipc_context)
  | flush_workqueue (wq : Nat)
  | destroy_workqueue (wq : Nat)
  | mb
  | tegra_bb_generate_ipc (bb : Nat)
deriving DecidableEq, Repr, Inhabited

/-- Modelled from the spec: the library function behind `%d` is not part of
`nvshm_ipc.c`; this is the C standard's decimal conversion of the signed value `v`, a
minus sign for a negative value and then the digits, without padding. -/
def fmt_d (v : Int) : List Char :=
  if v < 0 then '-' :: Nat.toDigits 10 v.natAbs else Nat.toDigits 10 v.toNat

/-- Modelled from the spec: `snprintf` is not part of `nvshm_ipc.c`; the call
`snprintf(buf, size, "nvshm_queue%d", v)` is read as the C standard defines it: it
leaves in `buf` the formatted text cut to `size - 1` characters, then the terminating
NUL.  The result is the text before the NUL. -/
def snprintf_nvshm_queue (size : Nat) (v : Int) : List Char :=
  ("nvshm_queue".toList ++ fmt_d v).take (size - 1)

/-- Reads back a text printed by `%d`: an optional minus sign, then decimal digits. -/
def parse_d (cs : List Char) : Int :=
  match cs with
  | '-' :: ds => - ((ds.foldl (fun n c => 10 * n + (c.toNat - 48)) 0 : Nat) : Int)
  | ds => ((ds.foldl (fun n c => 10 * n + (c.toNat - 48)) 0 : Nat) : Int)

/-- The function `nvshm_ipc_handler`: it queues the work item and returns. -/
def nvshm_ipc_handler (handle : nvshm_handle) : List KCall :=
  [KCall.queue_work handle.nvshm_wq]

/-- The function `nvshm_register_ipc`: return value, handle and calls; `wq` is the
address that `create_singlethread_workqueue` returns. -/
def nvshm_register_ipc (wq : Nat) (handle : nvshm_handle) :
    Int × nvshm_handle × List KCall :=
  let handle := { handle with
    wq_name := snprintf_nvshm_queue 15 (int_val handle.«instance») }
  let handle := { handle with nvshm_wq := wq }
  let handle := { handle with nvshm_work := some () }
  (0, handle,
    [KCall.create_singlethread_workqueue handle.wq_name,
     KCall.tegra_bb_register_ipc handle.tegra_bb ipc_callback.nvshm_ipc_handler
       ipc_context.handle])

/-- The function `nvshm_unregister_ipc`: return value, handle and calls. -/
def nvshm_unregister_ipc (handle : nvshm_handle) : Int × nvshm_handle × List KCall :=
  (0, handle,
    [KCall.flush_workqueue handle.nvshm_wq,
     KCall.destroy_workqueue handle.nvshm_wq,
     KCall.tegra_bb_register_ipc handle.tegra_bb ipc_callback.NULL ipc_context.NULL])

/-- The function `nvshm_generate_ipc`: return value, handle and calls. -/
def nvshm_generate_ipc (handle : nvshm_handle) : Int × nvshm_handle × List KCall :=
  (0, handle, [KCall.mb, KCall.tegra_bb_generate_ipc handle.tegra_bb])

/-! ## Sample values for the concrete runs -/

/-- Sample constants.  `NVSHM_IPC_READY = 1` is how the scenario word `0xFFFE0001` is
read; the other values are examples that satisfy the side conditions of `Defs`. -/
def K0 : Defs where
  NVSHM_CONFIG_OFFSET := 8
  NVSHM_CONFIG_VERSION := 0x00020001
  NVSHM_MAX_CHANNELS := 4
  CONFIG_TEGRA_BASEBAND_SIMU := false
  NVSHM_CHAN_UNMAP := 0
  NVSHM_CHAN_TTY := 1
  NVSHM_CHAN_LOG := 2
  NVSHM_CHAN_NET := 3
  NVSHM_IPC_READY := 1
  NVSHM_IPC_BOOT_FW_REQ := 2
  NVSHM_IPC_BOOT_RESTART_FW_REQ := 3
  NVSHM_IPC_BOOT_ERROR_BT2_HDR := 0x1000
  NVSHM_IPC_BOOT_ERROR_BT2_SIGN := 0x1001
  NVSHM_IPC_BOOT_ERROR_HWID := 0x1002
  NVSHM_IPC_BOOT_ERROR_APP_HDR := 0x1003
  NVSHM_IPC_BOOT_ERROR_APP_SIGN := 0x1004
  NVSHM_IPC_BOOT_ERROR_UNLOCK_HEADER := 0x1005
  NVSHM_IPC_BOOT_ERROR_UNLOCK_SIGN := 0x1006
  NVSHM_IPC_BOOT_ERROR_UNLOCK_PCID := 0x1007
  NVSHM_IPC_BOOT_COLD_BOOT_IND := 4
  NVSHM_IPC_BOOT_FW_CONF := 5
  max_channels_int := by decide
  chan_cases_nodup := by decide
  ipc_cases_nodup := by decide

/-- Sample collaborators: the two queue functions move the queue head, the others leave
the handle alone. -/
def C0 : Collab where
  nvshm_abort_queue := id
  nvshm_process_queue := fun h => { h with shared_queue_head := h.shared_queue_tail }
  nvshm_iobuf_init := id
  nvshm_init_queue := fun h => { h with shared_queue_head := h.shared_queue_tail }
  nvshm_tty_init := id
  nvshm_net_init := id
  nvshm_tty_cleanup := id
  nvshm_net_cleanup := id

/-- Sample configuration block: two terminal channels, no log channel, one network
channel; the reported size differs from the mapped size of `h0`. -/
def conf0 : nvshm_config where
  version := 0x00020001
  shmem_size := 0x100000
  region_ap_desc_offset := 0x1000
  region_ap_desc_size := 0x2000
  region_ap_data_offset := 0x4000
  region_ap_data_size := 0x8000
  queue_bb_offset := 0x1000
  queue_ap_offset := 0x1040
  chan_map := [⟨1, "tty0"⟩, ⟨1, "tty1"⟩, ⟨3, "net0"⟩, ⟨0, ""⟩]

/-- Sample configuration block with an unsupported version. -/
def conf_badver : nvshm_config := { conf0 with version := 0x00010003 }

/-- Sample handle after attach: not configured, no command seen. -/
def h0 : nvshm_handle where
  mb_base_virt := 0x10000
  ipc_base_virt := 0x20000
  ipc_size := 0x200000
  desc_base_virt := 0
  desc_size := 0
  data_base_virt := 0
  data_size := 0
  shared_queue_head := 0
  shared_queue_tail := 0
  chan := [⟨0, ⟨0, ""⟩⟩, ⟨0, ⟨0, ""⟩⟩, ⟨0, ⟨0, ""⟩⟩, ⟨0, ⟨0, ""⟩⟩]
  conf := 0
  configured := 0
  old_status := 0

/-- Sample handle of a link that is up: the state `h0` reaches by one `READY`. -/
def h1 : nvshm_handle :=
  { h0 with
    desc_base_virt := 0x21000, desc_size := 0x2000,
    data_base_virt := 0x24000, data_size := 0x8000,
    shared_queue_head := 0x21040, shared_queue_tail := 0x21040,
    chan := [⟨0, ⟨1, "tty0"⟩⟩, ⟨1, ⟨1, "tty1"⟩⟩, ⟨2, ⟨3, "net0"⟩⟩, ⟨3, ⟨0, ""⟩⟩],
    conf := 0x10008, configured := 1, old_status := 1 }

/-- The sample constants in the simulation build (`CONFIG_TEGRA_BASEBAND_SIMU` set). -/
def K0_simu : Defs := { K0 with CONFIG_TEGRA_BASEBAND_SIMU := true }

/-! ## Helper lemmas -/

/-- On signed values `int_not` is `~`: it sends `v` to `-v - 1`. -/
theorem int_not_val (x : Nat) : int_val (int_not x) = - int_val x - 1 := by
  unfold int_val int_not
  have : x % 2 ^ 32 < 2 ^ 32 := Nat.mod_lt _ (by decide)
  split_ifs <;> omega

/-- On signed values `int_sar _ 16` is the arithmetic shift: the floor of `v / 2 ^ 16`. -/
theorem int_sar_val (x : Nat) : int_val (int_sar x 16) = int_val x / 2 ^ 16 := by
  unfold int_val int_sar
  have hx : x % 2 ^ 32 < 2 ^ 32 := Nat.mod_lt _ (by decide)
  generalize x % 2 ^ 32 = y at hx
  by_cases hy : y < 2 ^ 31
  · simp only [hy, if_true, Nat.shiftRight_eq_div_pow]
    split_ifs <;> omega
  · have hor : (y >>> 16) ||| (2 ^ 32 - 2 ^ (32 - 16)) = 2 ^ 16 * 65535 + y / 2 ^ 16 := by
      have hlt : y / 2 ^ 16 < 2 ^ 16 := by omega
      rw [Nat.shiftRight_eq_div_pow, Nat.mul_add_lt_is_or hlt 65535, Nat.lor_comm]
      rfl
    simp only [hy, if_false, hor]
    split_ifs <;> omega

theorem int_sar_low (x : Nat) (hx : x < 2 ^ 32) : int_sar x 16 &&& 0xFFFF = x / 2 ^ 16 := by
  unfold int_sar
  rw [Nat.mod_eq_of_lt hx]
  have h1 : (x >>> 16) &&& 0xFFFF = x / 2 ^ 16 := by
    rw [Nat.shiftRight_eq_div_pow]
    have := Nat.and_pow_two_sub_one_eq_mod (x / 2 ^ 16) 16
    simp only [Nat.reducePow, Nat.reduceSub] at this ⊢
    rw [this]
    omega
  split
  · exact h1
  · have h2 : (2 ^ 32 - 2 ^ (32 - 16)) &&& 0xFFFF = 0 := by decide
    rw [Nat.and_distrib_right, h1, h2, Nat.or_zero]

theorem ipc_check_eq_zero_iff (w : Nat) (hw : w < 2 ^ 32) :
    ipc_check w (w &&& 0xFFFF) = 0 ↔ w / 2 ^ 16 = 2 ^ 16 - 1 - w % 2 ^ 16 := by
  unfold ipc_check
  rw [Nat.and_xor_distrib_right, Nat.xor_eq_zero, int_sar_low _ (by unfold int_not; omega)]
  have := Nat.and_pow_two_sub_one_eq_mod w 16
  simp only [Nat.reducePow, Nat.reduceSub] at this ⊢
  rw [Nat.and_assoc, Nat.and_self, this]
  unfold int_not
  simp only [Nat.reducePow, Nat.reduceSub] at hw ⊢
  rw [Nat.mod_eq_of_lt hw]
  constructor <;> intro h <;> omega

/-- The calls that `cleanup_interfaces` adds after its own entry. -/
theorem cleanup_interfaces_trace (K : Defs) (C : Collab) (s : State) :
    ∃ rest, (cleanup_interfaces K C s).trace = s.trace ++ Call.cleanup_interfaces :: rest
      ∧ ∀ e ∈ rest, e = Call.nvshm_tty_cleanup ∨ e = Call.nvshm_net_cleanup := by
  unfold cleanup_interfaces
  simp only [State.call]
  split_ifs
  · exact ⟨[Call.nvshm_tty_cleanup, Call.nvshm_net_cleanup], by simp, by simp⟩
  · exact ⟨[Call.nvshm_net_cleanup], by simp, by simp⟩
  · exact ⟨[Call.nvshm_tty_cleanup], by simp, by simp⟩
  · exact ⟨[], by simp, by simp⟩

theorem init_interfaces_trace (K : Defs) (C : Collab) (s : State) :
    ∃ rest, (init_interfaces K C s).trace = s.trace ++ Call.init_interfaces :: rest
      ∧ ∀ e ∈ rest, e = Call.nvshm_tty_init ∨ e = Call.nvshm_net_init := by
  unfold init_interfaces
  simp only [State.call]
  split_ifs
  · exact ⟨[Call.nvshm_tty_init, Call.nvshm_net_init], by simp, by simp⟩
  · exact ⟨[Call.nvshm_net_init], by simp, by simp⟩
  · exact ⟨[Call.nvshm_tty_init], by simp, by simp⟩
  · exact ⟨[], by simp, by simp⟩

theorem Collab.preserves_mem {α : Type} {C : Collab} {f : nvshm_handle → α}
    (hC : C.preserves f) :
    (∀ h, f (C.nvshm_abort_queue h) = f h) ∧ (∀ h, f (C.nvshm_process_queue h) = f h)
    ∧ (∀ h, f (C.nvshm_iobuf_init h) = f h) ∧ (∀ h, f (C.nvshm_init_queue h) = f h)
    ∧ (∀ h, f (C.nvshm_tty_init h) = f h) ∧ (∀ h, f (C.nvshm_net_init h) = f h)
    ∧ (∀ h, f (C.nvshm_tty_cleanup h) = f h) ∧ (∀ h, f (C.nvshm_net_cleanup h) = f h) := by
  refine ⟨?_, ?_, ?_, ?_, ?_, ?_, ?_, ?_⟩ <;> exact hC _ (by simp [Collab.all])

/-- The function `cleanup_interfaces` writes `configured` only. -/
theorem cleanup_interfaces_old_status (K : Defs) (C : Collab) (s : State)
    (hC : C.preserves (fun h => h.old_status)) :
    (cleanup_interfaces K C s).handle.old_status = s.handle.old_status := by
  obtain ⟨-, -, -, -, -, -, h7, h8⟩ := Collab.preserves_mem hC
  unfold cleanup_interfaces
  simp only [State.call]
  split_ifs <;> simp [h7, h8]

theorem cleanup_interfaces_configured (K : Defs) (C : Collab) (s : State)
    (hC : C.preserves (fun h => h.configured)) :
    (cleanup_interfaces K C s).handle.configured = 0 := by
  obtain ⟨-, -, -, -, -, -, h7, h8⟩ := Collab.preserves_mem hC
  unfold cleanup_interfaces
  simp only [State.call]
  split_ifs <;> simp [h7, h8]

theorem C0_preserves_old_status : C0.preserves (fun h => h.old_status) := by
  intro g hg h
  simp only [Collab.all, C0, List.mem_cons, List.mem_singleton, List.not_mem_nil, or_false] at hg
  rcases hg with rfl | rfl | rfl | rfl | rfl | rfl | rfl | rfl <;> rfl

theorem C0_preserves_configured : C0.preserves (fun h => h.configured) := by
  intro g hg h
  simp only [Collab.all, C0, List.mem_cons, List.mem_singleton, List.not_mem_nil, or_false] at hg
  rcases hg with rfl | rfl | rfl | rfl | rfl | rfl | rfl | rfl <;> rfl

theorem not_mem_of_either {rest : List Call} {x y : Call}
    (hrest : ∀ e ∈ rest, e = x ∨ e = y) (e : Call) (h1 : e ≠ x) (h2 : e ≠ y) : e ∉ rest := by
  intro he
  rcases hrest e he with h3 | h3
  · exact h1 h3
  · exact h2 h3

/-! ## The mailbox integrity check -/

/-- C1: for every 32-bit mailbox word `w`, the test of `ipc_work` accepts `w`
(`((~w >> 16) ^ (w & 0xFFFF)) & 0xFFFF` is zero) if and only if the upper 16 bits of `w`
equal the complement of its lower 16 bits, masked to 16 bits. -/
theorem ipc_check_accepts_iff (w : Nat) (hw : w < 2 ^ 32) :
    ipc_check w (w &&& 0xFFFF) = 0 ↔ w / 2 ^ 16 = (2 ^ 16 - 1) - w % 2 ^ 16 :=
  ipc_check_eq_zero_iff w hw

/-- The word `0xFFFE0001` is accepted and the word `0x00000001` is rejected. -/
theorem ipc_check_accepts_iff_witness :
    ipc_check 0xFFFE0001 (0xFFFE0001 &&& 0xFFFF) = 0 ∧ ipc_check 1 (1 &&& 0xFFFF) ≠ 0 :=
  ⟨(ipc_check_accepts_iff 0xFFFE0001 (by decide)).mpr (by decide),
   fun h => absurd ((ipc_check_accepts_iff 1 (by decide)).mp h) (by decide)⟩

/-! ## One run of the worker -/

/-- C2: on a configured handle, a word that fails the integrity check makes one run of
`ipc_work` call `nvshm_abort_queue` once, then `cleanup_interfaces` once (whose own calls
are the adapter cleanups only), none of `ipc_readconfig`, `nvshm_iobuf_init`,
`nvshm_init_queue`, `init_interfaces`, `nvshm_process_queue`; and `old_status` keeps its
value, the collaborators not writing that field. -/
theorem ipc_work_corrupt_configured (K : Defs) (C : Collab) (mem : shmem) (h : nvshm_handle)
    (hconf : h.configured ≠ 0)
    (hbad : ipc_check mem.mailbox (mem.mailbox &&& 0xFFFF) ≠ 0)
    (hC : C.preserves (fun h => h.old_status)) :
    (∃ rest, (ipc_work K C mem ⟨h, []⟩).trace
        = Call.nvshm_abort_queue :: Call.cleanup_interfaces :: rest
      ∧ ∀ e ∈ rest, e = Call.nvshm_tty_cleanup ∨ e = Call.nvshm_net_cleanup)
    ∧ (ipc_work K C mem ⟨h, []⟩).trace.count Call.nvshm_abort_queue = 1
    ∧ (ipc_work K C mem ⟨h, []⟩).trace.count Call.cleanup_interfaces = 1
    ∧ Call.ipc_readconfig ∉ (ipc_work K C mem ⟨h, []⟩).trace
    ∧ Call.nvshm_iobuf_init ∉ (ipc_work K C mem ⟨h, []⟩).trace
    ∧ Call.nvshm_init_queue ∉ (ipc_work K C mem ⟨h, []⟩).trace
    ∧ Call.init_interfaces ∉ (ipc_work K C mem ⟨h, []⟩).trace
    ∧ Call.nvshm_process_queue ∉ (ipc_work K C mem ⟨h, []⟩).trace
    ∧ (ipc_work K C mem ⟨h, []⟩).handle.old_status = h.old_status := by
  have hrun : ipc_work K C mem ⟨h, []⟩
      = cleanup_interfaces K C
          ((⟨h, []⟩ : State).call Call.nvshm_abort_queue C.nvshm_abort_queue) := by
    simp [ipc_work, hbad, hconf]
  obtain ⟨rest, htr, hrest⟩ := cleanup_interfaces_trace K C
    ((⟨h, []⟩ : State).call Call.nvshm_abort_queue C.nvshm_abort_queue)
  have htr2 : (ipc_work K C mem ⟨h, []⟩).trace
      = Call.nvshm_abort_queue :: Call.cleanup_interfaces :: rest := by
    rw [hrun, htr]; simp [State.call]
  have hcnt : ∀ e, e ≠ Call.nvshm_tty_cleanup → e ≠ Call.nvshm_net_cleanup → e ∉ rest :=
    fun e h1 h2 => not_mem_of_either hrest e h1 h2
  refine ⟨⟨rest, htr2, hrest⟩, ?_, ?_, ?_, ?_, ?_, ?_, ?_, ?_⟩
  · rw [htr2]
    simp [List.count_cons,
      List.count_eq_zero_of_not_mem (hcnt Call.nvshm_abort_queue (by decide) (by decide))]
  · rw [htr2]
    simp [List.count_cons,
      List.count_eq_zero_of_not_mem (hcnt Call.cleanup_interfaces (by decide) (by decide))]
  · rw [htr2]; simp [hcnt Call.ipc_readconfig (by decide) (by decide)]
  · rw [htr2]; simp [hcnt Call.nvshm_iobuf_init (by decide) (by decide)]
  · rw [htr2]; simp [hcnt Call.nvshm_init_queue (by decide) (by decide)]
  · rw [htr2]; simp [hcnt Call.init_interfaces (by decide) (by decide)]
  · rw [htr2]; simp [hcnt Call.nvshm_process_queue (by decide) (by decide)]
  · rw [hrun, cleanup_interfaces_old_status K C _ hC]
    exact (Collab.preserves_mem hC).1 h

/-- The scenario word `0x00000001` on the configured sample handle `h1`. -/
theorem ipc_work_corrupt_configured_witness :
    h1.configured ≠ 0 ∧ ipc_check 1 (1 &&& 0xFFFF) ≠ 0
    ∧ C0.preserves (fun h => h.old_status)
    ∧ (ipc_work K0 C0 ⟨1, conf0⟩ ⟨h1, []⟩).trace.count Call.nvshm_abort_queue = 1
    ∧ (ipc_work K0 C0 ⟨1, conf0⟩ ⟨h1, []⟩).trace.count Call.cleanup_interfaces = 1
    ∧ (ipc_work K0 C0 ⟨1, conf0⟩ ⟨h1, []⟩).handle.old_status = h1.old_status :=
  have key := ipc_work_corrupt_configured K0 C0 ⟨1, conf0⟩ h1 (by decide) (by decide)
    C0_preserves_old_status
  ⟨by decide, by decide, C0_preserves_old_status, key.2.1, key.2.2.1,
    key.2.2.2.2.2.2.2.2⟩

/-- The cold `READY` path: the state after the four negotiation steps. -/
theorem ipc_work_ready_cold (K : Defs) (C : Collab) (mem : shmem) (s : State)
    (hok : ipc_check mem.mailbox (mem.mailbox &&& 0xFFFF) = 0)
    (hcmd : mem.mailbox &&& 0xFFFF = K.NVSHM_IPC_READY)
    (hold : s.handle.old_status ≠ K.NVSHM_IPC_READY) :
    ipc_work K C mem s
      = (init_interfaces K C
          (((call_readconfig K mem s).call Call.nvshm_iobuf_init C.nvshm_iobuf_init).call
            Call.nvshm_init_queue C.nvshm_init_queue)).set_old_status K.NVSHM_IPC_READY := by
  have hne : ¬ (K.NVSHM_IPC_READY = s.handle.old_status) := fun h => hold h.symm
  have hok2 : ipc_check mem.mailbox K.NVSHM_IPC_READY = 0 := hcmd ▸ hok
  simp [ipc_work, hok2, hcmd, hne]

/-- The hot `READY` path. -/
theorem ipc_work_ready_hot (K : Defs) (C : Collab) (mem : shmem) (s : State)
    (hok : ipc_check mem.mailbox (mem.mailbox &&& 0xFFFF) = 0)
    (hcmd : mem.mailbox &&& 0xFFFF = K.NVSHM_IPC_READY)
    (hold : s.handle.old_status = K.NVSHM_IPC_READY) :
    ipc_work K C mem s
      = (s.call Call.nvshm_process_queue C.nvshm_process_queue).set_old_status
          K.NVSHM_IPC_READY := by
  have hok2 : ipc_check mem.mailbox K.NVSHM_IPC_READY = 0 := hcmd ▸ hok
  simp [ipc_work, hok2, hcmd, hold]

theorem ipc_work_ready_cold_trace (K : Defs) (C : Collab) (mem : shmem) (s : State)
    (hok : ipc_check mem.mailbox (mem.mailbox &&& 0xFFFF) = 0)
    (hcmd : mem.mailbox &&& 0xFFFF = K.NVSHM_IPC_READY)
    (hold : s.handle.old_status ≠ K.NVSHM_IPC_READY) :
    ∃ adapters, (ipc_work K C mem s).trace
        = s.trace ++ [Call.ipc_readconfig, Call.nvshm_iobuf_init, Call.nvshm_init_queue,
            Call.init_interfaces] ++ adapters
      ∧ ∀ e ∈ adapters, e = Call.nvshm_tty_init ∨ e = Call.nvshm_net_init := by
  rw [ipc_work_ready_cold K C mem s hok hcmd hold]
  obtain ⟨rest, htr, hrest⟩ := init_interfaces_trace K C
    (((call_readconfig K mem s).call Call.nvshm_iobuf_init C.nvshm_iobuf_init).call
      Call.nvshm_init_queue C.nvshm_init_queue)
  refine ⟨rest, ?_, hrest⟩
  simp only [State.set_old_status, htr]
  simp [State.call, call_readconfig]

/-- Runs on `READY` after a `READY`: each one processes the queue, nothing else. -/
theorem ipc_runs_ready_hot (K : Defs) (C : Collab) (mems : List shmem) :
    ∀ s : State, s.handle.old_status = K.NVSHM_IPC_READY →
    (∀ mem ∈ mems, ipc_check mem.mailbox (mem.mailbox &&& 0xFFFF) = 0
      ∧ mem.mailbox &&& 0xFFFF = K.NVSHM_IPC_READY) →
    (ipc_runs K C mems s).trace
      = s.trace ++ List.replicate mems.length Call.nvshm_process_queue := by
  induction mems with
  | nil => intro s _ _; simp [ipc_runs]
  | cons mem mems ih =>
    intro s hold hall
    have hm := hall mem (List.mem_cons_self _ _)
    have hstep := ipc_work_ready_hot K C mem s hm.1 hm.2 hold
    have hrest := ih (ipc_work K C mem s) (by rw [hstep]; rfl)
      (fun m hmem => hall m (List.mem_cons_of_mem _ hmem))
    have : ipc_runs K C (mem :: mems) s = ipc_runs K C mems (ipc_work K C mem s) := rfl
    rw [this, hrest, hstep]
    simp [State.set_old_status, State.call, List.replicate_succ]

/-- C3: from a handle whose last command is not `READY`, `n ≥ 2` consecutive runs of
`ipc_work` on the same integrity-valid `READY` word make exactly one negotiation
(`ipc_readconfig`, `nvshm_iobuf_init`, `nvshm_init_queue`, `init_interfaces` with its
adapter inits) in the first run and then `n - 1` calls of `nvshm_process_queue`, one per
later run; there is no second `ipc_readconfig` and no second `init_interfaces`. -/
theorem ipc_runs_ready_repeated (K : Defs) (C : Collab) (w : Nat) (mems : List shmem)
    (h : nvshm_handle)
    (hold : h.old_status ≠ K.NVSHM_IPC_READY)
    (hok : ipc_check w (w &&& 0xFFFF) = 0)
    (hcmd : w &&& 0xFFFF = K.NVSHM_IPC_READY)
    (hn : 2 ≤ mems.length)
    (hw : ∀ mem ∈ mems, mem.mailbox = w) :
    (∃ adapters, (ipc_runs K C mems ⟨h, []⟩).trace
        = [Call.ipc_readconfig, Call.nvshm_iobuf_init, Call.nvshm_init_queue,
            Call.init_interfaces] ++ adapters
          ++ List.replicate (mems.length - 1) Call.nvshm_process_queue
      ∧ ∀ e ∈ adapters, e = Call.nvshm_tty_init ∨ e = Call.nvshm_net_init)
    ∧ (ipc_runs K C mems ⟨h, []⟩).trace.count Call.ipc_readconfig = 1
    ∧ (ipc_runs K C mems ⟨h, []⟩).trace.count Call.nvshm_iobuf_init = 1
    ∧ (ipc_runs K C mems ⟨h, []⟩).trace.count Call.nvshm_init_queue = 1
    ∧ (ipc_runs K C mems ⟨h, []⟩).trace.count Call.init_interfaces = 1
    ∧ (ipc_runs K C mems ⟨h, []⟩).trace.count Call.nvshm_process_queue = mems.length - 1 := by
  match mems, hn, hw with
  | mem :: rest, _, hw =>
    have hm : mem.mailbox = w := hw mem (List.mem_cons_self _ _)
    have hok1 : ipc_check mem.mailbox (mem.mailbox &&& 0xFFFF) = 0 := by rw [hm]; exact hok
    have hcmd1 : mem.mailbox &&& 0xFFFF = K.NVSHM_IPC_READY := by rw [hm]; exact hcmd
    obtain ⟨adapters, htr, hadp⟩ := ipc_work_ready_cold_trace K C mem ⟨h, []⟩ hok1 hcmd1 hold
    have hstatus : (ipc_work K C mem ⟨h, []⟩).handle.old_status = K.NVSHM_IPC_READY := by
      rw [ipc_work_ready_cold K C mem ⟨h, []⟩ hok1 hcmd1 hold]; rfl
    have hhot := ipc_runs_ready_hot K C rest (ipc_work K C mem ⟨h, []⟩) hstatus
      (fun m hmem => by
        have := hw m (List.mem_cons_of_mem _ hmem)
        rw [this]; exact ⟨hok, hcmd⟩)
    have hall : (ipc_runs K C (mem :: rest) ⟨h, []⟩).trace
        = [Call.ipc_readconfig, Call.nvshm_iobuf_init, Call.nvshm_init_queue,
            Call.init_interfaces] ++ adapters
          ++ List.replicate ((mem :: rest).length - 1) Call.nvshm_process_queue := by
      have : ipc_runs K C (mem :: rest) ⟨h, []⟩
          = ipc_runs K C rest (ipc_work K C mem ⟨h, []⟩) := rfl
      rw [this, hhot, htr]
      simp
    have hcnt : ∀ e, e ≠ Call.nvshm_tty_init → e ≠ Call.nvshm_net_init →
        adapters.count e = 0 :=
      fun e h1 h2 => List.count_eq_zero_of_not_mem (not_mem_of_either hadp e h1 h2)
    refine ⟨⟨adapters, hall, hadp⟩, ?_, ?_, ?_, ?_, ?_⟩
    · rw [hall]
      simp [List.count_cons, List.count_replicate,
        hcnt Call.ipc_readconfig (by decide) (by decide)]
    · rw [hall]
      simp [List.count_cons, List.count_replicate,
        hcnt Call.nvshm_iobuf_init (by decide) (by decide)]
    · rw [hall]
      simp [List.count_cons, List.count_replicate,
        hcnt Call.nvshm_init_queue (by decide) (by decide)]
    · rw [hall]
      simp [List.count_cons, List.count_replicate,
        hcnt Call.init_interfaces (by decide) (by decide)]
    · rw [hall]
      simp [List.count_cons, List.count_replicate,
        hcnt Call.nvshm_process_queue (by decide) (by decide)]

/-- The scenario: the word `0xFFFE0001` twice, from the sample handle `h0`. -/
theorem ipc_runs_ready_repeated_witness :
    h0.old_status ≠ K0.NVSHM_IPC_READY
    ∧ ipc_check 0xFFFE0001 (0xFFFE0001 &&& 0xFFFF) = 0
    ∧ 0xFFFE0001 &&& 0xFFFF = K0.NVSHM_IPC_READY
    ∧ (ipc_runs K0 C0 [⟨0xFFFE0001, conf0⟩, ⟨0xFFFE0001, conf0⟩] ⟨h0, []⟩).trace.count
        Call.ipc_readconfig = 1
    ∧ (ipc_runs K0 C0 [⟨0xFFFE0001, conf0⟩, ⟨0xFFFE0001, conf0⟩] ⟨h0, []⟩).trace.count
        Call.nvshm_process_queue = 1 :=
  have key := ipc_runs_ready_repeated K0 C0 0xFFFE0001
    [⟨0xFFFE0001, conf0⟩, ⟨0xFFFE0001, conf0⟩] h0 (by decide) (by decide) (by decide)
    (by decide) (by decide)
  ⟨by decide, by decide, by decide, key.2.1, key.2.2.2.2.2⟩

/-- C4: on a handle whose last command is not `READY`, an integrity-valid `READY` word
makes one run of `ipc_work` perform `ipc_readconfig`, `nvshm_iobuf_init`,
`nvshm_init_queue`, `init_interfaces` once each and in this order (followed only by the
adapter inits of `init_interfaces`), with no call of `nvshm_process_queue`,
`nvshm_abort_queue` or `cleanup_interfaces`; the run ends with `old_status == READY`. -/
theorem ipc_work_fresh_negotiation (K : Defs) (C : Collab) (mem : shmem) (h : nvshm_handle)
    (hold : h.old_status ≠ K.NVSHM_IPC_READY)
    (hok : ipc_check mem.mailbox (mem.mailbox &&& 0xFFFF) = 0)
    (hcmd : mem.mailbox &&& 0xFFFF = K.NVSHM_IPC_READY) :
    (∃ adapters, (ipc_work K C mem ⟨h, []⟩).trace
        = [Call.ipc_readconfig, Call.nvshm_iobuf_init, Call.nvshm_init_queue,
            Call.init_interfaces] ++ adapters
      ∧ ∀ e ∈ adapters, e = Call.nvshm_tty_init ∨ e = Call.nvshm_net_init)
    ∧ (ipc_work K C mem ⟨h, []⟩).trace.count Call.ipc_readconfig = 1
    ∧ (ipc_work K C mem ⟨h, []⟩).trace.count Call.nvshm_iobuf_init = 1
    ∧ (ipc_work K C mem ⟨h, []⟩).trace.count Call.nvshm_init_queue = 1
    ∧ (ipc_work K C mem ⟨h, []⟩).trace.count Call.init_interfaces = 1
    ∧ Call.nvshm_process_queue ∉ (ipc_work K C mem ⟨h, []⟩).trace
    ∧ Call.nvshm_abort_queue ∉ (ipc_work K C mem ⟨h, []⟩).trace
    ∧ Call.cleanup_interfaces ∉ (ipc_work K C mem ⟨h, []⟩).trace
    ∧ (ipc_work K C mem ⟨h, []⟩).handle.old_status = K.NVSHM_IPC_READY := by
  obtain ⟨adapters, htr, hadp⟩ := ipc_work_ready_cold_trace K C mem ⟨h, []⟩ hok hcmd hold
  have htr2 : (ipc_work K C mem ⟨h, []⟩).trace
      = [Call.ipc_readconfig, Call.nvshm_iobuf_init, Call.nvshm_init_queue,
          Call.init_interfaces] ++ adapters := by
    rw [htr]; simp
  have hnot : ∀ e, e ≠ Call.nvshm_tty_init → e ≠ Call.nvshm_net_init → e ∉ adapters :=
    fun e h1 h2 => not_mem_of_either hadp e h1 h2
  refine ⟨⟨adapters, htr2, hadp⟩, ?_, ?_, ?_, ?_, ?_, ?_, ?_, ?_⟩
  · rw [htr2]
    simp [List.count_cons,
      List.count_eq_zero_of_not_mem (hnot Call.ipc_readconfig (by decide) (by decide))]
  · rw [htr2]
    simp [List.count_cons,
      List.count_eq_zero_of_not_mem (hnot Call.nvshm_iobuf_init (by decide) (by decide))]
  · rw [htr2]
    simp [List.count_cons,
      List.count_eq_zero_of_not_mem (hnot Call.nvshm_init_queue (by decide) (by decide))]
  · rw [htr2]
    simp [List.count_cons,
      List.count_eq_zero_of_not_mem (hnot Call.init_interfaces (by decide) (by decide))]
  · rw [htr2]; simp [hnot Call.nvshm_process_queue (by decide) (by decide)]
  · rw [htr2]; simp [hnot Call.nvshm_abort_queue (by decide) (by decide)]
  · rw [htr2]; simp [hnot Call.cleanup_interfaces (by decide) (by decide)]
  · rw [ipc_work_ready_cold K C mem ⟨h, []⟩ hok hcmd hold]; rfl

/-- The word `0xFFFE0001` on the sample handle `h0`: a full negotiation. -/
theorem ipc_work_fresh_negotiation_witness :
    h0.old_status ≠ K0.NVSHM_IPC_READY
    ∧ ipc_check 0xFFFE0001 (0xFFFE0001 &&& 0xFFFF) = 0
    ∧ 0xFFFE0001 &&& 0xFFFF = K0.NVSHM_IPC_READY
    ∧ Call.nvshm_process_queue ∉ (ipc_work K0 C0 ⟨0xFFFE0001, conf0⟩ ⟨h0, []⟩).trace
    ∧ (ipc_work K0 C0 ⟨0xFFFE0001, conf0⟩ ⟨h0, []⟩).handle.old_status
        = K0.NVSHM_IPC_READY :=
  have key := ipc_work_fresh_negotiation K0 C0 ⟨0xFFFE0001, conf0⟩ h0 (by decide)
    (by decide) (by decide)
  ⟨by decide, by decide, by decide, key.2.2.2.2.2.1, key.2.2.2.2.2.2.2.2⟩

theorem Defs.ready_ne (K : Defs) :
    K.NVSHM_IPC_BOOT_FW_REQ ≠ K.NVSHM_IPC_READY
    ∧ K.NVSHM_IPC_BOOT_RESTART_FW_REQ ≠ K.NVSHM_IPC_READY := by
  have h := K.ipc_cases_nodup
  simp only [List.nodup_cons, List.mem_cons, not_or] at h
  exact ⟨fun e => h.1.1 e.symm, fun e => h.1.2.1 e.symm⟩

/-- The `BOOT_FW_REQ` / `BOOT_RESTART_FW_REQ` branch. -/
theorem ipc_work_fw_req_branch (K : Defs) (C : Collab) (mem : shmem) (s : State)
    (hok : ipc_check mem.mailbox (mem.mailbox &&& 0xFFFF) = 0)
    (hcmd : mem.mailbox &&& 0xFFFF = K.NVSHM_IPC_BOOT_FW_REQ
      ∨ mem.mailbox &&& 0xFFFF = K.NVSHM_IPC_BOOT_RESTART_FW_REQ) :
    ipc_work K C mem s
      = (if s.handle.configured ≠ 0 then
          cleanup_interfaces K C (s.call Call.nvshm_abort_queue C.nvshm_abort_queue)
         else s).set_old_status (mem.mailbox &&& 0xFFFF) := by
  have hne : mem.mailbox &&& 0xFFFF ≠ K.NVSHM_IPC_READY := by
    rcases hcmd with e | e <;> rw [e]
    · exact K.ready_ne.1
    · exact K.ready_ne.2
  unfold ipc_work
  simp only [hok, ne_eq, not_true_eq_false, if_false, hne, hcmd, if_true]

/-- C5: for an integrity-valid word whose command is `BOOT_FW_REQ` or
`BOOT_RESTART_FW_REQ`: on a configured handle one run of `ipc_work` calls
`nvshm_abort_queue` once, then `cleanup_interfaces` once, and writes `old_status` after
both (the result is the state they leave, with `old_status` set to the command);
`configured` is then 0, the collaborators not writing that field.  On an unconfigured
handle no call is made and only `old_status` changes. -/
theorem ipc_work_boot_fw_request (K : Defs) (C : Collab) (mem : shmem) (h : nvshm_handle)
    (hok : ipc_check mem.mailbox (mem.mailbox &&& 0xFFFF) = 0)
    (hcmd : mem.mailbox &&& 0xFFFF = K.NVSHM_IPC_BOOT_FW_REQ
      ∨ mem.mailbox &&& 0xFFFF = K.NVSHM_IPC_BOOT_RESTART_FW_REQ)
    (hC : C.preserves (fun h => h.configured)) :
    (h.configured ≠ 0 →
      (∃ rest, (ipc_work K C mem ⟨h, []⟩).trace
          = Call.nvshm_abort_queue :: Call.cleanup_interfaces :: rest
        ∧ ∀ e ∈ rest, e = Call.nvshm_tty_cleanup ∨ e = Call.nvshm_net_cleanup)
      ∧ (ipc_work K C mem ⟨h, []⟩).trace.count Call.nvshm_abort_queue = 1
      ∧ (ipc_work K C mem ⟨h, []⟩).trace.count Call.cleanup_interfaces = 1
      ∧ ipc_work K C mem ⟨h, []⟩
          = (cleanup_interfaces K C
              ((⟨h, []⟩ : State).call Call.nvshm_abort_queue
                C.nvshm_abort_queue)).set_old_status (mem.mailbox &&& 0xFFFF)
      ∧ (ipc_work K C mem ⟨h, []⟩).handle.old_status = mem.mailbox &&& 0xFFFF
      ∧ (ipc_work K C mem ⟨h, []⟩).handle.configured = 0)
    ∧ (h.configured = 0 →
      ipc_work K C mem ⟨h, []⟩ = ⟨{ h with old_status := mem.mailbox &&& 0xFFFF }, []⟩) := by
  have hrun := ipc_work_fw_req_branch K C mem ⟨h, []⟩ hok hcmd
  constructor
  · intro hconf
    have hrun2 : ipc_work K C mem ⟨h, []⟩
        = (cleanup_interfaces K C
            ((⟨h, []⟩ : State).call Call.nvshm_abort_queue
              C.nvshm_abort_queue)).set_old_status (mem.mailbox &&& 0xFFFF) := by
      rw [hrun]; simp [hconf]
    obtain ⟨rest, htr, hrest⟩ := cleanup_interfaces_trace K C
      ((⟨h, []⟩ : State).call Call.nvshm_abort_queue C.nvshm_abort_queue)
    have htr2 : (ipc_work K C mem ⟨h, []⟩).trace
        = Call.nvshm_abort_queue :: Call.cleanup_interfaces :: rest := by
      rw [hrun2]; simp only [State.set_old_status, htr]; simp [State.call]
    have hnot : ∀ e, e ≠ Call.nvshm_tty_cleanup → e ≠ Call.nvshm_net_cleanup → e ∉ rest :=
      fun e h1 h2 => not_mem_of_either hrest e h1 h2
    refine ⟨⟨rest, htr2, hrest⟩, ?_, ?_, hrun2, ?_, ?_⟩
    · rw [htr2]
      simp [List.count_cons,
        List.count_eq_zero_of_not_mem (hnot Call.nvshm_abort_queue (by decide) (by decide))]
    · rw [htr2]
      simp [List.count_cons,
        List.count_eq_zero_of_not_mem (hnot Call.cleanup_interfaces (by decide) (by decide))]
    · rw [hrun2]; rfl
    · rw [hrun2]
      exact cleanup_interfaces_configured K C _ hC
  · intro hconf
    rw [hrun]; simp [hconf, State.set_old_status]

/-- The word `0xFFFD0002` (`BOOT_FW_REQ` in the sample constants) on the configured
sample handle `h1` and on the unconfigured `h0`. -/
theorem ipc_work_boot_fw_request_witness :
    ipc_check 0xFFFD0002 (0xFFFD0002 &&& 0xFFFF) = 0
    ∧ (0xFFFD0002 &&& 0xFFFF = K0.NVSHM_IPC_BOOT_FW_REQ
      ∨ 0xFFFD0002 &&& 0xFFFF = K0.NVSHM_IPC_BOOT_RESTART_FW_REQ)
    ∧ C0.preserves (fun h => h.configured)
    ∧ h1.configured ≠ 0
    ∧ (ipc_work K0 C0 ⟨0xFFFD0002, conf0⟩ ⟨h1, []⟩).handle.configured = 0
    ∧ h0.configured = 0
    ∧ ipc_work K0 C0 ⟨0xFFFD0002, conf0⟩ ⟨h0, []⟩ = ⟨{ h0 with old_status := 2 }, []⟩ :=
  have key1 := ipc_work_boot_fw_request K0 C0 ⟨0xFFFD0002, conf0⟩ h1 (by decide)
    (by decide) C0_preserves_configured
  have key0 := ipc_work_boot_fw_request K0 C0 ⟨0xFFFD0002, conf0⟩ h0 (by decide)
    (by decide) C0_preserves_configured
  ⟨by decide, by decide, C0_preserves_configured, by decide,
    (key1.1 (by decide)).2.2.2.2.2, by decide, key0.2 (by decide)⟩

/-! ## The configuration reader -/

/-- C6: on an unconfigured handle, `ipc_readconfig` returns failure (-1) and leaves
`configured == 0` if and only if the version of the block differs from
`NVSHM_CONFIG_VERSION`; when the version matches it returns 0 and sets `configured` to 1,
whatever the reported `shmem_size` is, and `ipc_size` keeps the mapped value. -/
theorem ipc_readconfig_rejects_iff (K : Defs) (mem : shmem) (h : nvshm_handle)
    (hconf : h.configured = 0) :
    (((ipc_readconfig K mem h).1 = -1 ∧ (ipc_readconfig K mem h).2.configured = 0)
      ↔ mem.conf.version ≠ K.NVSHM_CONFIG_VERSION)
    ∧ (mem.conf.version = K.NVSHM_CONFIG_VERSION →
        (ipc_readconfig K mem h).1 = 0 ∧ (ipc_readconfig K mem h).2.configured = 1
        ∧ (ipc_readconfig K mem h).2.ipc_size = h.ipc_size) := by
  by_cases hv : mem.conf.version = K.NVSHM_CONFIG_VERSION
  · have h1 : (ipc_readconfig K mem h).1 = 0 := by simp [ipc_readconfig, hv]
    have h2 : (ipc_readconfig K mem h).2.configured = 1 := by
      simp only [ipc_readconfig, hv, ne_eq, not_true_eq_false, if_false]
    have h3 : (ipc_readconfig K mem h).2.ipc_size = h.ipc_size := by
      simp only [ipc_readconfig, hv, ne_eq, not_true_eq_false, if_false]
      split <;> rfl
    refine ⟨⟨fun hh => ?_, fun hh => absurd hv hh⟩, fun _ => ⟨h1, h2, h3⟩⟩
    rw [h1] at hh
    exact absurd hh.1 (by decide)
  · have h1 : ipc_readconfig K mem h = (-1, h) := by simp [ipc_readconfig, hv]
    refine ⟨⟨fun _ => hv, fun _ => ?_⟩, fun hh => absurd hh hv⟩
    rw [h1]
    exact ⟨rfl, hconf⟩

/-- The sample block `conf0` on `h0`: the version matches and the sizes differ. -/
theorem ipc_readconfig_rejects_iff_witness :
    h0.configured = 0
    ∧ conf0.version = K0.NVSHM_CONFIG_VERSION ∧ h0.ipc_size ≠ conf0.shmem_size
    ∧ (ipc_readconfig K0 ⟨0xFFFE0001, conf0⟩ h0).1 = 0
    ∧ (ipc_readconfig K0 ⟨0xFFFE0001, conf0⟩ h0).2.configured = 1
    ∧ (ipc_readconfig K0 ⟨0xFFFE0001, conf0⟩ h0).2.ipc_size = h0.ipc_size
    ∧ conf_badver.version ≠ K0.NVSHM_CONFIG_VERSION
    ∧ (ipc_readconfig K0 ⟨0xFFFE0001, conf_badver⟩ h0).1 = -1
    ∧ (ipc_readconfig K0 ⟨0xFFFE0001, conf_badver⟩ h0).2.configured = 0 :=
  have key := ipc_readconfig_rejects_iff K0 ⟨0xFFFE0001, conf0⟩ h0 (by decide)
  have bad := ipc_readconfig_rejects_iff K0 ⟨0xFFFE0001, conf_badver⟩ h0 (by decide)
  ⟨by decide, by decide, by decide, (key.2 (by decide)).1, (key.2 (by decide)).2.1,
    (key.2 (by decide)).2.2, by decide, (bad.1.mpr (by decide)).1,
    (bad.1.mpr (by decide)).2⟩

/-- C7: the run of `ipc_work` on the unconfigured sample handle `h0`, a valid `READY`
word and a configuration block of an unsupported version: `ipc_readconfig` fails and
leaves the handle unconfigured, and `ipc_work` still calls `nvshm_iobuf_init`,
`nvshm_init_queue` and `init_interfaces`, and records `READY` as the last command. -/
theorem ipc_work_version_mismatch_continues :
    (ipc_readconfig K0 ⟨0xFFFE0001, conf_badver⟩ h0).1 = -1
    ∧ (ipc_work K0 C0 ⟨0xFFFE0001, conf_badver⟩ ⟨h0, []⟩).trace
        = [Call.ipc_readconfig, Call.nvshm_iobuf_init, Call.nvshm_init_queue,
            Call.init_interfaces]
    ∧ (ipc_work K0 C0 ⟨0xFFFE0001, conf_badver⟩ ⟨h0, []⟩).handle.configured = 0
    ∧ (ipc_work K0 C0 ⟨0xFFFE0001, conf_badver⟩ ⟨h0, []⟩).handle.old_status
        = K0.NVSHM_IPC_READY := by
  decide

/-- C8: for every mailbox word that passes the integrity check, after one run of
`ipc_work` the field `old_status` equals `word & 0xFFFF`, whatever the command is. -/
theorem ipc_work_old_status (K : Defs) (C : Collab) (mem : shmem) (s : State)
    (hok : ipc_check mem.mailbox (mem.mailbox &&& 0xFFFF) = 0) :
    (ipc_work K C mem s).handle.old_status = mem.mailbox &&& 0xFFFF := by
  unfold ipc_work
  simp only [hok, ne_eq, not_true_eq_false, if_false]
  split_ifs <;> rfl

/-- The words of `READY` (cold, then hot), `BOOT_FW_REQ`, a boot error, `BOOT_FW_CONF`
and an unknown command (`0x0777`), with the sample constants. -/
theorem ipc_work_old_status_witness :
    ipc_check 0xFFFE0001 (0xFFFE0001 &&& 0xFFFF) = 0
    ∧ (ipc_work K0 C0 ⟨0xFFFE0001, conf0⟩ ⟨h0, []⟩).handle.old_status = 1
    ∧ (ipc_work K0 C0 ⟨0xFFFE0001, conf0⟩ ⟨h1, []⟩).handle.old_status = 1
    ∧ ipc_check 0xFFFD0002 (0xFFFD0002 &&& 0xFFFF) = 0
    ∧ (ipc_work K0 C0 ⟨0xFFFD0002, conf0⟩ ⟨h1, []⟩).handle.old_status = 2
    ∧ ipc_check 0xEFFF1000 (0xEFFF1000 &&& 0xFFFF) = 0
    ∧ (ipc_work K0 C0 ⟨0xEFFF1000, conf0⟩ ⟨h1, []⟩).handle.old_status = 0x1000
    ∧ ipc_check 0xFFFA0005 (0xFFFA0005 &&& 0xFFFF) = 0
    ∧ (ipc_work K0 C0 ⟨0xFFFA0005, conf0⟩ ⟨h1, []⟩).handle.old_status = 5
    ∧ ipc_check 0xF8880777 (0xF8880777 &&& 0xFFFF) = 0
    ∧ (ipc_work K0 C0 ⟨0xF8880777, conf0⟩ ⟨h1, []⟩).handle.old_status = 0x0777 :=
  ⟨by decide, ipc_work_old_status K0 C0 ⟨0xFFFE0001, conf0⟩ ⟨h0, []⟩ (by decide),
   ipc_work_old_status K0 C0 ⟨0xFFFE0001, conf0⟩ ⟨h1, []⟩ (by decide),
   by decide, ipc_work_old_status K0 C0 ⟨0xFFFD0002, conf0⟩ ⟨h1, []⟩ (by decide),
   by decide, ipc_work_old_status K0 C0 ⟨0xEFFF1000, conf0⟩ ⟨h1, []⟩ (by decide),
   by decide, ipc_work_old_status K0 C0 ⟨0xFFFA0005, conf0⟩ ⟨h1, []⟩ (by decide),
   by decide, ipc_work_old_status K0 C0 ⟨0xF8880777, conf0⟩ ⟨h1, []⟩ (by decide)⟩

/-- C9: on an unconfigured handle, a word that fails the integrity check makes one run
of `ipc_work` a no-op: no call is recorded and no field of the handle changes. -/
theorem ipc_work_corrupt_unconfigured (K : Defs) (C : Collab) (mem : shmem) (s : State)
    (hconf : s.handle.configured = 0)
    (hbad : ipc_check mem.mailbox (mem.mailbox &&& 0xFFFF) ≠ 0) :
    ipc_work K C mem s = s := by
  simp [ipc_work, hbad, hconf]

/-- The word `0x00000001` on the unconfigured sample handle `h0`. -/
theorem ipc_work_corrupt_unconfigured_witness :
    h0.configured = 0 ∧ ipc_check 1 (1 &&& 0xFFFF) ≠ 0
    ∧ ipc_work K0 C0 ⟨1, conf0⟩ ⟨h0, []⟩ = ⟨h0, []⟩ :=
  ⟨by decide, by decide,
   ipc_work_corrupt_unconfigured K0 C0 ⟨1, conf0⟩ ⟨h0, []⟩ (by decide) (by decide)⟩

/-! ## The channel classifier -/

/-- A pointer sum that stays below `2 ^ 32` is the plain sum. -/
theorem ptr_add_eq_add (p off : Nat) (hfit : p + off < 2 ^ 32) : ptr_add p off = p + off :=
  Nat.mod_eq_of_lt hfit

/-- C11: for a configuration block of the supported version, `ipc_readconfig` leaves
`desc_base_virt == ipc_base_virt + region_ap_desc_offset`,
`desc_size == region_ap_desc_size`,
`data_base_virt == ipc_base_virt + region_ap_data_offset`,
`data_size == region_ap_data_size`,
`shared_queue_tail == ipc_base_virt + queue_ap_offset` in both builds,
`shared_queue_head == ipc_base_virt + queue_bb_offset` in the hardware build and
`ipc_base_virt + queue_ap_offset` in the simulation build, and
`conf == mb_base_virt + NVSHM_CONFIG_OFFSET`, where `+` is the pointer addition of the
code (`ptr_add`: the sum of the address and the offset, wrapping at the pointer width);
the two bases are not written.  No offset is checked against a bound; where a sum
stays below `2 ^ 32` the field is the plain sum. -/
theorem ipc_readconfig_regions (K : Defs) (mem : shmem) (h : nvshm_handle)
    (hv : mem.conf.version = K.NVSHM_CONFIG_VERSION) :
    (ipc_readconfig K mem h).2.ipc_base_virt = h.ipc_base_virt
    ∧ (ipc_readconfig K mem h).2.mb_base_virt = h.mb_base_virt
    ∧ (ipc_readconfig K mem h).2.desc_base_virt
        = ptr_add h.ipc_base_virt mem.conf.region_ap_desc_offset
    ∧ (ipc_readconfig K mem h).2.desc_size = mem.conf.region_ap_desc_size
    ∧ (ipc_readconfig K mem h).2.data_base_virt
        = ptr_add h.ipc_base_virt mem.conf.region_ap_data_offset
    ∧ (ipc_readconfig K mem h).2.data_size = mem.conf.region_ap_data_size
    ∧ (ipc_readconfig K mem h).2.shared_queue_tail
        = ptr_add h.ipc_base_virt mem.conf.queue_ap_offset
    ∧ (K.CONFIG_TEGRA_BASEBAND_SIMU = false →
        (ipc_readconfig K mem h).2.shared_queue_head
          = ptr_add h.ipc_base_virt mem.conf.queue_bb_offset)
    ∧ (K.CONFIG_TEGRA_BASEBAND_SIMU = true →
        (ipc_readconfig K mem h).2.shared_queue_head
          = ptr_add h.ipc_base_virt mem.conf.queue_ap_offset)
    ∧ (ipc_readconfig K mem h).2.conf = ptr_add h.mb_base_virt K.NVSHM_CONFIG_OFFSET
    ∧ (h.ipc_base_virt + mem.conf.region_ap_desc_offset < 2 ^ 32 →
        (ipc_readconfig K mem h).2.desc_base_virt
          = h.ipc_base_virt + mem.conf.region_ap_desc_offset)
    ∧ (h.ipc_base_virt + mem.conf.region_ap_data_offset < 2 ^ 32 →
        (ipc_readconfig K mem h).2.data_base_virt
          = h.ipc_base_virt + mem.conf.region_ap_data_offset)
    ∧ (h.ipc_base_virt + mem.conf.queue_ap_offset < 2 ^ 32 →
        (ipc_readconfig K mem h).2.shared_queue_tail
          = h.ipc_base_virt + mem.conf.queue_ap_offset)
    ∧ (h.mb_base_virt + K.NVSHM_CONFIG_OFFSET < 2 ^ 32 →
        (ipc_readconfig K mem h).2.conf = h.mb_base_virt + K.NVSHM_CONFIG_OFFSET) := by
  have key : (ipc_readconfig K mem h).2.ipc_base_virt = h.ipc_base_virt
      ∧ (ipc_readconfig K mem h).2.mb_base_virt = h.mb_base_virt
      ∧ (ipc_readconfig K mem h).2.desc_base_virt
          = ptr_add h.ipc_base_virt mem.conf.region_ap_desc_offset
      ∧ (ipc_readconfig K mem h).2.desc_size = mem.conf.region_ap_desc_size
      ∧ (ipc_readconfig K mem h).2.data_base_virt
          = ptr_add h.ipc_base_virt mem.conf.region_ap_data_offset
      ∧ (ipc_readconfig K mem h).2.data_size = mem.conf.region_ap_data_size
      ∧ (ipc_readconfig K mem h).2.shared_queue_tail
          = ptr_add h.ipc_base_virt mem.conf.queue_ap_offset
      ∧ (K.CONFIG_TEGRA_BASEBAND_SIMU = false →
          (ipc_readconfig K mem h).2.shared_queue_head
            = ptr_add h.ipc_base_virt mem.conf.queue_bb_offset)
      ∧ (K.CONFIG_TEGRA_BASEBAND_SIMU = true →
          (ipc_readconfig K mem h).2.shared_queue_head
            = ptr_add h.ipc_base_virt mem.conf.queue_ap_offset)
      ∧ (ipc_readconfig K mem h).2.conf
          = ptr_add h.mb_base_virt K.NVSHM_CONFIG_OFFSET := by
    simp only [ipc_readconfig, hv, ne_eq, not_true_eq_false, if_false]
    cases hs : K.CONFIG_TEGRA_BASEBAND_SIMU <;> simp
  obtain ⟨k1, k2, k3, k4, k5, k6, k7, k8, k9, k10⟩ := key
  exact ⟨k1, k2, k3, k4, k5, k6, k7, k8, k9, k10,
    fun hfit => k3.trans (ptr_add_eq_add _ _ hfit),
    fun hfit => k5.trans (ptr_add_eq_add _ _ hfit),
    fun hfit => k7.trans (ptr_add_eq_add _ _ hfit),
    fun hfit => k10.trans (ptr_add_eq_add _ _ hfit)⟩

/-- The sample block `conf0` on `h0`, in the hardware build and in the simulation
build; then two blocks with hostile offsets: base `0xfffff000` with descriptor offset
`0x1000` wraps to address 0, and descriptor offset `0xffffffff` on base `0x20000` gives
`0x1ffff`, one below the base. -/
theorem ipc_readconfig_regions_witness :
    conf0.version = K0.NVSHM_CONFIG_VERSION
    ∧ (ipc_readconfig K0 ⟨0xFFFE0001, conf0⟩ h0).2.desc_base_virt = 0x21000
    ∧ (ipc_readconfig K0 ⟨0xFFFE0001, conf0⟩ h0).2.shared_queue_tail = 0x21040
    ∧ (ipc_readconfig K0 ⟨0xFFFE0001, conf0⟩ h0).2.shared_queue_head = 0x21000
    ∧ conf0.version = K0_simu.NVSHM_CONFIG_VERSION
    ∧ (ipc_readconfig K0_simu ⟨0xFFFE0001, conf0⟩ h0).2.shared_queue_head = 0x21040
    ∧ (ipc_readconfig K0 ⟨0xFFFE0001, conf0⟩ h0).2.conf = 0x10008
    ∧ (ipc_readconfig K0 ⟨0xFFFE0001, conf0⟩
        { h0 with ipc_base_virt := 0xfffff000 }).2.desc_base_virt = 0
    ∧ (ipc_readconfig K0 ⟨0xFFFE0001, { conf0 with region_ap_desc_offset := 0xffffffff }⟩
        h0).2.desc_base_virt = 0x1ffff :=
  have key := ipc_readconfig_regions K0 ⟨0xFFFE0001, conf0⟩ h0 (by decide)
  have sim := ipc_readconfig_regions K0_simu ⟨0xFFFE0001, conf0⟩ h0 (by decide)
  have wrap := ipc_readconfig_regions K0 ⟨0xFFFE0001, conf0⟩
    { h0 with ipc_base_virt := 0xfffff000 } (by decide)
  have neg := ipc_readconfig_regions K0
    ⟨0xFFFE0001, { conf0 with region_ap_desc_offset := 0xffffffff }⟩ h0 (by decide)
  ⟨by decide, key.2.2.1.trans (by decide), key.2.2.2.2.2.2.1.trans (by decide),
    (key.2.2.2.2.2.2.2.1 (by decide)).trans (by decide), by decide,
    (sim.2.2.2.2.2.2.2.2.1 (by decide)).trans (by decide),
    key.2.2.2.2.2.2.2.2.2.1.trans (by decide), wrap.2.2.1.trans (by decide),
    neg.2.2.1.trans (by decide)⟩

/-! ## Registration, teardown and the outbound signal -/

set_option maxRecDepth 100000 in
/-- Reading back the number from the worker name, for the values of at most three
characters. -/
theorem parse_d_snprintf_small :
    ∀ k : Nat, k < 1099 →
      parse_d ((snprintf_nvshm_queue 15 ((k : Int) - 99)).drop 11) = (k : Int) - 99 := by
  decide

theorem parse_d_snprintf (v : Int) (hlo : -99 ≤ v) (hhi : v ≤ 999) :
    parse_d ((snprintf_nvshm_queue 15 v).drop 11) = v := by
  have h := parse_d_snprintf_small (v + 99).toNat (by omega)
  have e : (((v + 99).toNat : Nat) : Int) - 99 = v := by omega
  rw [e] at h
  exact h

/-- C12 as stated fails: the instance numbers 1000 and 1001 are different and
`nvshm_register_ipc` writes the same worker name `nvshm_queue100` for both. -/
theorem wq_name_collision :
    int_val 1000 ≠ int_val 1001
    ∧ (nvshm_register_ipc 0 { h0 with «instance» := 1000 }).2.1.wq_name
        = (nvshm_register_ipc 0 { h0 with «instance» := 1001 }).2.1.wq_name
    ∧ (nvshm_register_ipc 0 { h0 with «instance» := 1000 }).2.1.wq_name
        = "nvshm_queue100".toList := by
  decide

/-- C12, amended: for two handles whose instance numbers are different and lie between
-99 and 999 (the values that `%d` prints in at most three characters),
`nvshm_register_ipc` writes different worker names. -/
theorem wq_name_unique_small (wq1 wq2 : Nat) (h1 h2 : nvshm_handle)
    (hne : int_val h1.«instance» ≠ int_val h2.«instance»)
    (hr1 : -99 ≤ int_val h1.«instance» ∧ int_val h1.«instance» ≤ 999)
    (hr2 : -99 ≤ int_val h2.«instance» ∧ int_val h2.«instance» ≤ 999) :
    (nvshm_register_ipc wq1 h1).2.1.wq_name ≠ (nvshm_register_ipc wq2 h2).2.1.wq_name := by
  intro heq
  have e1 : (nvshm_register_ipc wq1 h1).2.1.wq_name
      = snprintf_nvshm_queue 15 (int_val h1.«instance») := rfl
  have e2 : (nvshm_register_ipc wq2 h2).2.1.wq_name
      = snprintf_nvshm_queue 15 (int_val h2.«instance») := rfl
  rw [e1, e2] at heq
  have p1 := parse_d_snprintf _ hr1.1 hr1.2
  have p2 := parse_d_snprintf _ hr2.1 hr2.2
  rw [heq, p2] at p1
  exact hne p1.symm

/-- The instance numbers 0 and 999. -/
theorem wq_name_unique_small_witness :
    int_val 0 ≠ int_val 999
    ∧ (-99 ≤ int_val 0 ∧ int_val 0 ≤ 999) ∧ (-99 ≤ int_val 999 ∧ int_val 999 ≤ 999)
    ∧ (nvshm_register_ipc 0 { h0 with «instance» := 0 }).2.1.wq_name
        ≠ (nvshm_register_ipc 0 { h0 with «instance» := 999 }).2.1.wq_name :=
  ⟨by decide, by decide, by decide,
   wq_name_unique_small 0 0 { h0 with «instance» := 0 } { h0 with «instance» := 999 }
     (by decide) (by decide) (by decide)⟩

/-- C13: `nvshm_unregister_ipc` makes exactly three calls, in this order:
`flush_workqueue` on the worker, `destroy_workqueue` on the same worker, then
`tegra_bb_register_ipc` with a null callback and a null context; it returns 0 and
writes no field of the handle. -/
theorem nvshm_unregister_ipc_calls (h : nvshm_handle) :
    (nvshm_unregister_ipc h).2.2
      = [KCall.flush_workqueue h.nvshm_wq, KCall.destroy_workqueue h.nvshm_wq,
         KCall.tegra_bb_register_ipc h.tegra_bb ipc_callback.NULL ipc_context.NULL]
    ∧ (nvshm_unregister_ipc h).2.2.length = 3
    ∧ (nvshm_unregister_ipc h).2.2.indexOf (KCall.flush_workqueue h.nvshm_wq)
        < (nvshm_unregister_ipc h).2.2.indexOf (KCall.destroy_workqueue h.nvshm_wq)
    ∧ (nvshm_unregister_ipc h).1 = 0
    ∧ (nvshm_unregister_ipc h).2.1 = h := by
  refine ⟨rfl, rfl, ?_, rfl, rfl⟩
  simp [nvshm_unregister_ipc, List.indexOf_cons]

/-- C14: `nvshm_generate_ipc` calls `mb` once, then `tegra_bb_generate_ipc` once, and
nothing else, so every signal has the barrier before it; no field of the handle is
written. -/
theorem nvshm_generate_ipc_calls (h : nvshm_handle) :
    (nvshm_generate_ipc h).2.2 = [KCall.mb, KCall.tegra_bb_generate_ipc h.tegra_bb]
    ∧ (nvshm_generate_ipc h).2.2.count KCall.mb = 1
    ∧ (nvshm_generate_ipc h).2.2.count (KCall.tegra_bb_generate_ipc h.tegra_bb) = 1
    ∧ (∀ pre post bb, (nvshm_generate_ipc h).2.2 = pre ++ KCall.tegra_bb_generate_ipc bb :: post
        → KCall.mb ∈ pre)
    ∧ (nvshm_generate_ipc h).2.1 = h := by
  refine ⟨rfl, ?_, ?_, ?_, rfl⟩
  · simp [nvshm_generate_ipc, List.count_cons]
  · simp [nvshm_generate_ipc, List.count_cons]
  · intro pre post bb hsplit
    simp only [nvshm_generate_ipc] at hsplit
    match pre, hsplit with
    | [], hsplit => simp at hsplit
    | x :: pre, hsplit =>
      simp only [List.cons_append, List.cons.injEq] at hsplit
      rw [← hsplit.1]
      exact List.mem_cons_self _ _

/-- C20: for a configuration block whose version differs from `NVSHM_CONFIG_VERSION`,
`ipc_readconfig` returns -1 and the handle it leaves is the handle it was given, field
for field, configured or not. -/
theorem ipc_readconfig_failure_atomic (K : Defs) (mem : shmem) (h : nvshm_handle)
    (hv : mem.conf.version ≠ K.NVSHM_CONFIG_VERSION) :
    ipc_readconfig K mem h = (-1, h) := by
  simp [ipc_readconfig, hv]

/-- The block `conf_badver` on the configured handle `h1` and on the unconfigured
`h0`. -/
theorem ipc_readconfig_failure_atomic_witness :
    conf_badver.version ≠ K0.NVSHM_CONFIG_VERSION
    ∧ h1.configured ≠ 0
    ∧ ipc_readconfig K0 ⟨0xFFFE0001, conf_badver⟩ h1 = (-1, h1)
    ∧ ipc_readconfig K0 ⟨0xFFFE0001, conf_badver⟩ h0 = (-1, h0) :=
  ⟨by decide, by decide,
   ipc_readconfig_failure_atomic K0 ⟨0xFFFE0001, conf_badver⟩ h1 (by decide),
   ipc_readconfig_failure_atomic K0 ⟨0xFFFE0001, conf_badver⟩ h0 (by decide)⟩

/-! ## The branches that only log -/

/-- A valid word whose command is none of `READY`, `BOOT_FW_REQ`,
`BOOT_RESTART_FW_REQ`: the run only records the command. -/
theorem ipc_work_log_branch (K : Defs) (C : Collab) (mem : shmem) (s : State)
    (hok : ipc_check mem.mailbox (mem.mailbox &&& 0xFFFF) = 0)
    (h1 : mem.mailbox &&& 0xFFFF ≠ K.NVSHM_IPC_READY)
    (h2 : mem.mailbox &&& 0xFFFF ≠ K.NVSHM_IPC_BOOT_FW_REQ)
    (h3 : mem.mailbox &&& 0xFFFF ≠ K.NVSHM_IPC_BOOT_RESTART_FW_REQ) :
    ipc_work K C mem s = s.set_old_status (mem.mailbox &&& 0xFFFF) := by
  unfold ipc_work
  simp only [hok, ne_eq, not_true_eq_false, if_false, h1, h2, h3, or_self]
  split_ifs <;> rfl

/-- The labels of the two logging groups differ from the three labels that act. -/
theorem Defs.log_label_ne (K : Defs) (x : Nat)
    (hx : x ∈ [K.NVSHM_IPC_BOOT_ERROR_BT2_HDR, K.NVSHM_IPC_BOOT_ERROR_BT2_SIGN,
      K.NVSHM_IPC_BOOT_ERROR_HWID, K.NVSHM_IPC_BOOT_ERROR_APP_HDR,
      K.NVSHM_IPC_BOOT_ERROR_APP_SIGN, K.NVSHM_IPC_BOOT_ERROR_UNLOCK_HEADER,
      K.NVSHM_IPC_BOOT_ERROR_UNLOCK_SIGN, K.NVSHM_IPC_BOOT_ERROR_UNLOCK_PCID,
      K.NVSHM_IPC_BOOT_COLD_BOOT_IND, K.NVSHM_IPC_BOOT_FW_CONF]) :
    x ≠ K.NVSHM_IPC_READY ∧ x ≠ K.NVSHM_IPC_BOOT_FW_REQ
    ∧ x ≠ K.NVSHM_IPC_BOOT_RESTART_FW_REQ := by
  have h := K.ipc_cases_nodup
  rw [List.nodup_cons, List.nodup_cons, List.nodup_cons] at h
  obtain ⟨ha, hb, hc, -⟩ := h
  refine ⟨?_, ?_, ?_⟩
  · rintro rfl
    exact ha (List.mem_cons_of_mem _ (List.mem_cons_of_mem _ hx))
  · rintro rfl
    exact hb (List.mem_cons_of_mem _ hx)
  · rintro rfl
    exact hc hx

/-- C15: for an integrity-valid word whose command is a `BOOT_ERROR_*` code,
`BOOT_COLD_BOOT_IND`, `BOOT_FW_CONF` or no known command, one run of `ipc_work` makes
no call at all and the handle it leaves is the handle it was given with `old_status`
set to the command: `configured`, the channel table and every other field are
unchanged. -/
theorem ipc_work_log_only (K : Defs) (C : Collab) (mem : shmem) (h : nvshm_handle)
    (hok : ipc_check mem.mailbox (mem.mailbox &&& 0xFFFF) = 0)
    (hcmd : mem.mailbox &&& 0xFFFF ∈
        [K.NVSHM_IPC_BOOT_ERROR_BT2_HDR, K.NVSHM_IPC_BOOT_ERROR_BT2_SIGN,
         K.NVSHM_IPC_BOOT_ERROR_HWID, K.NVSHM_IPC_BOOT_ERROR_APP_HDR,
         K.NVSHM_IPC_BOOT_ERROR_APP_SIGN, K.NVSHM_IPC_BOOT_ERROR_UNLOCK_HEADER,
         K.NVSHM_IPC_BOOT_ERROR_UNLOCK_SIGN, K.NVSHM_IPC_BOOT_ERROR_UNLOCK_PCID,
         K.NVSHM_IPC_BOOT_COLD_BOOT_IND, K.NVSHM_IPC_BOOT_FW_CONF]
      ∨ mem.mailbox &&& 0xFFFF ∉
        [K.NVSHM_IPC_READY, K.NVSHM_IPC_BOOT_FW_REQ, K.NVSHM_IPC_BOOT_RESTART_FW_REQ,
         K.NVSHM_IPC_BOOT_ERROR_BT2_HDR, K.NVSHM_IPC_BOOT_ERROR_BT2_SIGN,
         K.NVSHM_IPC_BOOT_ERROR_HWID, K.NVSHM_IPC_BOOT_ERROR_APP_HDR,
         K.NVSHM_IPC_BOOT_ERROR_APP_SIGN, K.NVSHM_IPC_BOOT_ERROR_UNLOCK_HEADER,
         K.NVSHM_IPC_BOOT_ERROR_UNLOCK_SIGN, K.NVSHM_IPC_BOOT_ERROR_UNLOCK_PCID,
         K.NVSHM_IPC_BOOT_COLD_BOOT_IND, K.NVSHM_IPC_BOOT_FW_CONF]) :
    ipc_work K C mem ⟨h, []⟩ = ⟨{ h with old_status := mem.mailbox &&& 0xFFFF }, []⟩
    ∧ (ipc_work K C mem ⟨h, []⟩).trace = []
    ∧ (ipc_work K C mem ⟨h, []⟩).handle.configured = h.configured
    ∧ (ipc_work K C mem ⟨h, []⟩).handle.chan = h.chan := by
  have hne : mem.mailbox &&& 0xFFFF ≠ K.NVSHM_IPC_READY
      ∧ mem.mailbox &&& 0xFFFF ≠ K.NVSHM_IPC_BOOT_FW_REQ
      ∧ mem.mailbox &&& 0xFFFF ≠ K.NVSHM_IPC_BOOT_RESTART_FW_REQ := by
    rcases hcmd with hin | hout
    · exact K.log_label_ne _ hin
    · simp only [List.mem_cons, not_or] at hout
      exact ⟨hout.1, hout.2.1, hout.2.2.1⟩
  have hrun := ipc_work_log_branch K C mem ⟨h, []⟩ hok hne.1 hne.2.1 hne.2.2
  rw [hrun]
  exact ⟨rfl, rfl, rfl, rfl⟩

/-- A boot error (`0x1000`), `BOOT_FW_CONF` (5) and an unknown command (`0x0777`) on the
configured sample handle `h1`. -/
theorem ipc_work_log_only_witness :
    ipc_check 0xEFFF1000 (0xEFFF1000 &&& 0xFFFF) = 0
    ∧ ipc_work K0 C0 ⟨0xEFFF1000, conf0⟩ ⟨h1, []⟩ = ⟨{ h1 with old_status := 0x1000 }, []⟩
    ∧ ipc_check 0xFFFA0005 (0xFFFA0005 &&& 0xFFFF) = 0
    ∧ ipc_work K0 C0 ⟨0xFFFA0005, conf0⟩ ⟨h1, []⟩ = ⟨{ h1 with old_status := 5 }, []⟩
    ∧ ipc_check 0xF8880777 (0xF8880777 &&& 0xFFFF) = 0
    ∧ ipc_work K0 C0 ⟨0xF8880777, conf0⟩ ⟨h1, []⟩ = ⟨{ h1 with old_status := 0x0777 }, []⟩ :=
  ⟨by decide,
   (ipc_work_log_only K0 C0 ⟨0xEFFF1000, conf0⟩ h1 (by decide) (Or.inl (by decide))).1,
   by decide,
   (ipc_work_log_only K0 C0 ⟨0xFFFA0005, conf0⟩ h1 (by decide) (Or.inl (by decide))).1,
   by decide,
   (ipc_work_log_only K0 C0 ⟨0xF8880777, conf0⟩ h1 (by decide) (Or.inr (by decide))).1⟩

/-! ## Interface cleanup -/

theorem C0_preserves_chan : C0.preserves (fun h => h.chan) := by
  intro g hg h
  simp only [Collab.all, C0, List.mem_cons, List.mem_singleton, List.not_mem_nil, or_false] at hg
  rcases hg with rfl | rfl | rfl | rfl | rfl | rfl | rfl | rfl <;> rfl

/-- After the first `n` rounds of the copy loop the entries below `n` are fresh and the
others are untouched. -/
theorem foldl_set_range {α : Type} (f : Nat → α) (table : List α) (n : Nat) :
    ((List.range n).foldl (fun t chan => t.set chan (f chan)) table).length = table.length
    ∧ ∀ i, ((List.range n).foldl (fun t chan => t.set chan (f chan)) table)[i]?
        = if i < n ∧ i < table.length then some (f i) else table[i]? := by
  induction n with
  | zero => simp
  | succ n ih =>
    obtain ⟨ihl, ihg⟩ := ih
    rw [List.range_succ, List.foldl_append]
    simp only [List.foldl_cons, List.foldl_nil, List.length_set]
    refine ⟨ihl, fun i => ?_⟩
    rw [List.getElem?_set, ihl, ihg]
    by_cases hin : n = i
    · subst hin
      by_cases hlt : n < table.length
      · simp [hlt]
      · simp only [hlt, if_false, and_false]
        exact (List.getElem?_eq_none (by omega)).symm
    · have : (i < n + 1 ∧ i < table.length) ↔ (i < n ∧ i < table.length) := by omega
      simp only [hin, if_false, this]

/-- The entries of the table after the copy loop of `ipc_readconfig`. -/
theorem readconfig_chan_get (K : Defs) (conf : nvshm_config) (table : List nvshm_channel)
    (hlen : table.length = K.NVSHM_MAX_CHANNELS) (i : Nat) (hi : i < K.NVSHM_MAX_CHANNELS) :
    (readconfig_chan K conf table)[i]?
      = some { index := i, map := conf.chan_map.getD i default } := by
  unfold readconfig_chan
  rw [(foldl_set_range
    (fun chan => ({ index := chan, map := conf.chan_map.getD chan default } : nvshm_channel))
    table K.NVSHM_MAX_CHANNELS).2 i]
  simp [hi, hlen]

/-- Apart from the fresh negotiation no run of `ipc_work` writes the channel table. -/
theorem ipc_work_chan_frame (K : Defs) (C : Collab) (mem : shmem) (s : State)
    (hC : C.preserves (fun g => g.chan))
    (hnot : ¬ (ipc_check mem.mailbox (mem.mailbox &&& 0xFFFF) = 0
      ∧ mem.mailbox &&& 0xFFFF = K.NVSHM_IPC_READY
      ∧ s.handle.old_status ≠ K.NVSHM_IPC_READY)) :
    (ipc_work K C mem s).handle.chan = s.handle.chan := by
  obtain ⟨p1, p2, -, -, -, -, p7, p8⟩ := Collab.preserves_mem hC
  have hcl : ∀ t : State, (cleanup_interfaces K C t).handle.chan = t.handle.chan := by
    intro t
    unfold cleanup_interfaces
    simp only [State.call]
    split_ifs <;> simp [p7, p8]
  unfold ipc_work
  simp only [State.set_old_status]
  split_ifs with c1 c2 c3 c4 c5 c6
  all_goals first
    | rfl
    | (simp only [hcl, State.call]; exact p1 _)
    | exact p2 _
    | (exfalso; exact hnot ⟨not_not.mp c1, c3, fun e => c4 (c3.trans e.symm)⟩)

/-- C17: for a configuration block of the supported version (the table and the channel
map being arrays of `NVSHM_MAX_CHANNELS` entries), after `ipc_readconfig` entry `i` of
`handle.chan` has `index == i` and `map` equal to `conf.chan_map[i]`, for every
`i < NVSHM_MAX_CHANNELS` and whatever the table held before.  The table holds copies:
a later run of the worker that is not a fresh negotiation leaves it as it is, whatever
the configuration block holds then (the collaborators not writing the table). -/
theorem ipc_readconfig_chan_snapshot (K : Defs) (mem : shmem) (h : nvshm_handle)
    (hv : mem.conf.version = K.NVSHM_CONFIG_VERSION)
    (hlen : h.chan.length = K.NVSHM_MAX_CHANNELS)
    (hmap : mem.conf.chan_map.length = K.NVSHM_MAX_CHANNELS) :
    (∀ i, i < K.NVSHM_MAX_CHANNELS →
      ∃ m, mem.conf.chan_map[i]? = some m
        ∧ (ipc_readconfig K mem h).2.chan[i]? = some { index := i, map := m })
    ∧ (ipc_readconfig K mem h).2.chan.length = K.NVSHM_MAX_CHANNELS
    ∧ (∀ h2 : nvshm_handle, h2.chan.length = K.NVSHM_MAX_CHANNELS →
        (ipc_readconfig K mem h2).2.chan = (ipc_readconfig K mem h).2.chan)
    ∧ (∀ (C : Collab) (mem2 : shmem), C.preserves (fun g => g.chan) →
        ¬ (ipc_check mem2.mailbox (mem2.mailbox &&& 0xFFFF) = 0
          ∧ mem2.mailbox &&& 0xFFFF = K.NVSHM_IPC_READY
          ∧ (ipc_readconfig K mem h).2.old_status ≠ K.NVSHM_IPC_READY) →
        (ipc_work K C mem2 ⟨(ipc_readconfig K mem h).2, []⟩).handle.chan
          = (ipc_readconfig K mem h).2.chan) := by
  have hchan : ∀ g : nvshm_handle,
      (ipc_readconfig K mem g).2.chan = readconfig_chan K mem.conf g.chan := by
    intro g
    simp only [ipc_readconfig, hv, ne_eq, not_true_eq_false, if_false]
    split <;> rfl
  have hlen2 : ∀ g : nvshm_handle,
      (readconfig_chan K mem.conf g.chan).length = g.chan.length := fun g =>
    (foldl_set_range _ g.chan K.NVSHM_MAX_CHANNELS).1
  refine ⟨fun i hi => ?_, ?_, fun h2 hl2 => ?_, fun C mem2 hC hnot => ?_⟩
  · refine ⟨mem.conf.chan_map.getD i default, ?_, ?_⟩
    · rw [List.getD_eq_getElem?_getD, List.getElem?_eq_getElem (by omega)]
      rfl
    · rw [hchan]
      exact readconfig_chan_get K mem.conf h.chan hlen i hi
  · rw [hchan, hlen2, hlen]
  · rw [hchan, hchan]
    apply List.ext_getElem?
    intro i
    by_cases hi : i < K.NVSHM_MAX_CHANNELS
    · rw [readconfig_chan_get K mem.conf h2.chan hl2 i hi,
        readconfig_chan_get K mem.conf h.chan hlen i hi]
    · rw [List.getElem?_eq_none (by rw [hlen2]; omega),
        List.getElem?_eq_none (by rw [hlen2]; omega)]
  · exact ipc_work_chan_frame K C mem2 ⟨(ipc_readconfig K mem h).2, []⟩ hC hnot

/-- The sample block `conf0` read into `h0`, and into `h1` whose table held other
entries; then a boot-error word with a changed configuration block. -/
theorem ipc_readconfig_chan_snapshot_witness :
    conf0.version = K0.NVSHM_CONFIG_VERSION
    ∧ h0.chan.length = K0.NVSHM_MAX_CHANNELS
    ∧ conf0.chan_map.length = K0.NVSHM_MAX_CHANNELS
    ∧ (ipc_readconfig K0 ⟨0xFFFE0001, conf0⟩ h0).2.chan
        = [⟨0, ⟨1, "tty0"⟩⟩, ⟨1, ⟨1, "tty1"⟩⟩, ⟨2, ⟨3, "net0"⟩⟩, ⟨3, ⟨0, ""⟩⟩]
    ∧ (ipc_readconfig K0 ⟨0xFFFE0001, conf0⟩ h1).2.chan
        = (ipc_readconfig K0 ⟨0xFFFE0001, conf0⟩ h0).2.chan
    ∧ (ipc_work K0 C0 ⟨0xEFFF1000, { conf0 with chan_map := [] }⟩
          ⟨(ipc_readconfig K0 ⟨0xFFFE0001, conf0⟩ h0).2, []⟩).handle.chan
        = (ipc_readconfig K0 ⟨0xFFFE0001, conf0⟩ h0).2.chan :=
  have key := ipc_readconfig_chan_snapshot K0 ⟨0xFFFE0001, conf0⟩ h0 (by decide)
    (by decide) (by decide)
  ⟨by decide, by decide, by decide, by decide, key.2.2.1 h1 (by decide),
   key.2.2.2 C0 ⟨0xEFFF1000, { conf0 with chan_map := [] }⟩ C0_preserves_chan (by decide)⟩

/-! ## Sequences of runs -/

/-- The branch of a word that fails the integrity check. -/
theorem ipc_work_corrupt_branch (K : Defs) (C : Collab) (mem : shmem) (s : State)
    (hbad : ipc_check mem.mailbox (mem.mailbox &&& 0xFFFF) ≠ 0) :
    ipc_work K C mem s
      = if s.handle.configured ≠ 0 then
          cleanup_interfaces K C (s.call Call.nvshm_abort_queue C.nvshm_abort_queue)
        else s := by
  unfold ipc_work
  simp only [hbad, ne_eq, not_false_eq_true, if_true]

/-- The teardown `nvshm_abort_queue(handle); cleanup_interfaces(handle);`. -/
theorem teardown_trace (K : Defs) (C : Collab) (h : nvshm_handle) :
    ∃ rest, (cleanup_interfaces K C
        ((⟨h, []⟩ : State).call Call.nvshm_abort_queue C.nvshm_abort_queue)).trace
        = Call.nvshm_abort_queue :: Call.cleanup_interfaces :: rest
      ∧ ∀ e ∈ rest, e = Call.nvshm_tty_cleanup ∨ e = Call.nvshm_net_cleanup := by
  obtain ⟨rest, htr, hrest⟩ := cleanup_interfaces_trace K C
    ((⟨h, []⟩ : State).call Call.nvshm_abort_queue C.nvshm_abort_queue)
  exact ⟨rest, by rw [htr]; simp [State.call], hrest⟩

/-- Outside the `READY` case a run makes the teardown calls or none. -/
theorem ipc_work_not_ready_trace (K : Defs) (C : Collab) (mem : shmem) (h : nvshm_handle)
    (hnot : ¬ (ipc_check mem.mailbox (mem.mailbox &&& 0xFFFF) = 0
      ∧ mem.mailbox &&& 0xFFFF = K.NVSHM_IPC_READY)) :
    (ipc_work K C mem ⟨h, []⟩).trace = []
    ∨ ∃ rest, (ipc_work K C mem ⟨h, []⟩).trace
        = Call.nvshm_abort_queue :: Call.cleanup_interfaces :: rest
      ∧ ∀ e ∈ rest, e = Call.nvshm_tty_cleanup ∨ e = Call.nvshm_net_cleanup := by
  by_cases hok : ipc_check mem.mailbox (mem.mailbox &&& 0xFFFF) = 0
  · have h1 : mem.mailbox &&& 0xFFFF ≠ K.NVSHM_IPC_READY := fun e => hnot ⟨hok, e⟩
    by_cases hfw : mem.mailbox &&& 0xFFFF = K.NVSHM_IPC_BOOT_FW_REQ
        ∨ mem.mailbox &&& 0xFFFF = K.NVSHM_IPC_BOOT_RESTART_FW_REQ
    · rw [ipc_work_fw_req_branch K C mem ⟨h, []⟩ hok hfw]
      by_cases hc : h.configured ≠ 0
      · right
        rw [if_pos hc]
        exact teardown_trace K C h
      · left
        rw [if_neg hc]
        rfl
    · left
      rw [ipc_work_log_branch K C mem ⟨h, []⟩ hok h1 (fun e => hfw (Or.inl e))
        (fun e => hfw (Or.inr e))]
      rfl
  · rw [ipc_work_corrupt_branch K C mem ⟨h, []⟩ hok]
    by_cases hc : h.configured ≠ 0
    · right
      rw [if_pos hc]
      exact teardown_trace K C h
    · left
      rw [if_neg hc]

/-- Which run calls `nvshm_process_queue`: the hot `READY` path only. -/
theorem process_mem_trace_iff (K : Defs) (C : Collab) (mem : shmem) (h : nvshm_handle) :
    Call.nvshm_process_queue ∈ (ipc_work K C mem ⟨h, []⟩).trace
      ↔ (ipc_check mem.mailbox (mem.mailbox &&& 0xFFFF) = 0
        ∧ mem.mailbox &&& 0xFFFF = K.NVSHM_IPC_READY
        ∧ h.old_status = K.NVSHM_IPC_READY) := by
  by_cases hr : ipc_check mem.mailbox (mem.mailbox &&& 0xFFFF) = 0
      ∧ mem.mailbox &&& 0xFFFF = K.NVSHM_IPC_READY
  · by_cases hold : h.old_status = K.NVSHM_IPC_READY
    · rw [ipc_work_ready_hot K C mem ⟨h, []⟩ hr.1 hr.2 hold]
      exact ⟨fun _ => ⟨hr.1, hr.2, hold⟩, fun _ => by simp [State.set_old_status, State.call]⟩
    · obtain ⟨adapters, htr, hadp⟩ :=
        ipc_work_ready_cold_trace K C mem ⟨h, []⟩ hr.1 hr.2 hold
      rw [htr]
      simp [hold, not_mem_of_either hadp Call.nvshm_process_queue (by decide) (by decide)]
  · constructor
    · intro hmem
      rcases ipc_work_not_ready_trace K C mem h hr with e | ⟨rest, e, hrest⟩
      · rw [e] at hmem; simp at hmem
      · rw [e] at hmem
        simp [not_mem_of_either hrest Call.nvshm_process_queue (by decide) (by decide)]
          at hmem
    · intro hh
      exact absurd ⟨hh.1, hh.2.1⟩ hr

/-- Which run makes a fresh negotiation: the cold `READY` path only. -/
theorem negotiation_mem_trace_iff (K : Defs) (C : Collab) (mem : shmem) (h : nvshm_handle) :
    (Call.ipc_readconfig ∈ (ipc_work K C mem ⟨h, []⟩).trace
        ∨ Call.init_interfaces ∈ (ipc_work K C mem ⟨h, []⟩).trace)
      ↔ (ipc_check mem.mailbox (mem.mailbox &&& 0xFFFF) = 0
        ∧ mem.mailbox &&& 0xFFFF = K.NVSHM_IPC_READY
        ∧ h.old_status ≠ K.NVSHM_IPC_READY) := by
  by_cases hr : ipc_check mem.mailbox (mem.mailbox &&& 0xFFFF) = 0
      ∧ mem.mailbox &&& 0xFFFF = K.NVSHM_IPC_READY
  · by_cases hold : h.old_status = K.NVSHM_IPC_READY
    · rw [ipc_work_ready_hot K C mem ⟨h, []⟩ hr.1 hr.2 hold]
      simp [State.set_old_status, State.call, hold]
    · obtain ⟨adapters, htr, -⟩ :=
        ipc_work_ready_cold_trace K C mem ⟨h, []⟩ hr.1 hr.2 hold
      rw [htr]
      exact ⟨fun _ => ⟨hr.1, hr.2, hold⟩, fun _ => by simp⟩
  · constructor
    · intro hmem
      rcases ipc_work_not_ready_trace K C mem h hr with e | ⟨rest, e, hrest⟩
      · rw [e] at hmem; simp at hmem
      · rw [e] at hmem
        simp [not_mem_of_either hrest Call.ipc_readconfig (by decide) (by decide),
          not_mem_of_either hrest Call.init_interfaces (by decide) (by decide)] at hmem
    · intro hh
      exact absurd ⟨hh.1, hh.2.1⟩ hr

/-- The function `init_interfaces` does not write `configured`. -/
theorem init_interfaces_configured (K : Defs) (C : Collab) (s : State)
    (hC : C.preserves (fun h => h.configured)) :
    (init_interfaces K C s).handle.configured = s.handle.configured := by
  obtain ⟨-, -, -, -, h5, h6, -, -⟩ := Collab.preserves_mem hC
  unfold init_interfaces
  simp only [State.call]
  split_ifs <;> simp [h5, h6]

/-- The value of `configured` after one run, the collaborators not writing it. -/
theorem ipc_work_configured (K : Defs) (C : Collab) (mem : shmem) (h : nvshm_handle)
    (hC : C.preserves (fun h => h.configured)) :
    (ipc_check mem.mailbox (mem.mailbox &&& 0xFFFF) ≠ 0 →
      (ipc_work K C mem ⟨h, []⟩).handle.configured = 0)
    ∧ (ipc_check mem.mailbox (mem.mailbox &&& 0xFFFF) = 0 →
        (mem.mailbox &&& 0xFFFF = K.NVSHM_IPC_BOOT_FW_REQ
          ∨ mem.mailbox &&& 0xFFFF = K.NVSHM_IPC_BOOT_RESTART_FW_REQ) →
        (ipc_work K C mem ⟨h, []⟩).handle.configured = 0)
    ∧ (ipc_check mem.mailbox (mem.mailbox &&& 0xFFFF) = 0 →
        mem.mailbox &&& 0xFFFF = K.NVSHM_IPC_READY →
        h.old_status = K.NVSHM_IPC_READY →
        (ipc_work K C mem ⟨h, []⟩).handle.configured = h.configured)
    ∧ (ipc_check mem.mailbox (mem.mailbox &&& 0xFFFF) = 0 →
        mem.mailbox &&& 0xFFFF = K.NVSHM_IPC_READY →
        h.old_status ≠ K.NVSHM_IPC_READY →
        mem.conf.version = K.NVSHM_CONFIG_VERSION →
        (ipc_work K C mem ⟨h, []⟩).handle.configured = 1) := by
  obtain ⟨p1, p2, p3, p4, -, -, -, -⟩ := Collab.preserves_mem hC
  refine ⟨fun hbad => ?_, fun hok hfw => ?_, fun hok hcmd hold => ?_,
    fun hok hcmd hold hv => ?_⟩
  · rw [ipc_work_corrupt_branch K C mem ⟨h, []⟩ hbad]
    by_cases hc : h.configured ≠ 0
    · rw [if_pos hc]
      exact cleanup_interfaces_configured K C _ hC
    · rw [if_neg hc]
      exact not_not.mp hc
  · rw [ipc_work_fw_req_branch K C mem ⟨h, []⟩ hok hfw]
    by_cases hc : h.configured ≠ 0
    · rw [if_pos hc]
      exact cleanup_interfaces_configured K C _ hC
    · rw [if_neg hc]
      exact not_not.mp hc
  · rw [ipc_work_ready_hot K C mem ⟨h, []⟩ hok hcmd hold]
    simp only [State.set_old_status, State.call]
    exact p2 h
  · rw [ipc_work_ready_cold K C mem ⟨h, []⟩ hok hcmd hold]
    simp only [State.set_old_status]
    rw [init_interfaces_configured K C _ hC]
    simp only [State.call, call_readconfig]
    rw [p4, p3]
    simp only [ipc_readconfig, hv, ne_eq, not_true_eq_false, if_false]

/-- The invariant behind C18: while the last command is `READY` the handle is
configured, over valid words and blocks of the supported version. -/
theorem process_only_configured_inv (K : Defs) (C : Collab)
    (hC : C.preserves (fun h => h.configured)) (mems : List shmem) :
    ∀ h : nvshm_handle,
    (h.old_status = K.NVSHM_IPC_READY → h.configured ≠ 0) →
    (∀ mem ∈ mems, ipc_check mem.mailbox (mem.mailbox &&& 0xFFFF) = 0
      ∧ mem.conf.version = K.NVSHM_CONFIG_VERSION) →
    process_only_configured K C mems h := by
  induction mems with
  | nil => intro h _ _; trivial
  | cons mem mems ih =>
    intro h hinv hall
    obtain ⟨hok, hv⟩ := hall mem (List.mem_cons_self _ _)
    obtain ⟨-, -, chot, ccold⟩ := ipc_work_configured K C mem h hC
    refine ⟨fun hp => ?_, ih _ ?_ (fun m hm => hall m (List.mem_cons_of_mem _ hm))⟩
    · exact hinv ((process_mem_trace_iff K C mem h).mp hp).2.2
    · intro hst
      by_cases hcmd : mem.mailbox &&& 0xFFFF = K.NVSHM_IPC_READY
      · by_cases hold : h.old_status = K.NVSHM_IPC_READY
        · rw [chot hok hcmd hold]
          exact hinv hold
        · rw [ccold hok hcmd hold hv]
          decide
      · exfalso
        have hst2 : (ipc_work K C mem ⟨h, []⟩).handle.old_status
            = mem.mailbox &&& 0xFFFF := by
          unfold ipc_work
          simp only [hok, ne_eq, not_true_eq_false, if_false]
          split_ifs <;> rfl
        exact hcmd (hst2.symm.trans hst)

/-- C18 as stated fails: from the unconfigured sample handle `h0`, the words `READY`
(negotiation), `0x00000001` (corrupt: teardown, `old_status` stays `READY`) and `READY`
again: the third run starts with `configured == 0` and calls `nvshm_process_queue`. -/
theorem process_queue_after_teardown :
    h0.configured = 0 ∧ h0.old_status ≠ K0.NVSHM_IPC_READY
    ∧ (ipc_runs K0 C0 [⟨0xFFFE0001, conf0⟩, ⟨1, conf0⟩] ⟨h0, []⟩).handle.configured = 0
    ∧ (ipc_work K0 C0 ⟨0xFFFE0001, conf0⟩
        ⟨(ipc_runs K0 C0 [⟨0xFFFE0001, conf0⟩, ⟨1, conf0⟩] ⟨h0, []⟩).handle, []⟩).trace
        = [Call.nvshm_process_queue]
    ∧ ¬ process_only_configured K0 C0
        [⟨0xFFFE0001, conf0⟩, ⟨1, conf0⟩, ⟨0xFFFE0001, conf0⟩] h0 := by
  refine ⟨by decide, by decide, by decide, by decide, fun hp => ?_⟩
  simp only [process_only_configured] at hp
  exact hp.2.2.1 (by decide) (by decide)

/-- C18, amended: in every sequence of runs over integrity-valid words and
configuration blocks of the supported version, from a handle with
`old_status != READY` (configured or not, so in particular with `configured == 0`),
`nvshm_process_queue` is called only in a run that starts with `configured` set (the
collaborators not writing `configured`). -/
theorem process_only_configured_of_valid (K : Defs) (C : Collab) (mems : List shmem)
    (h : nvshm_handle)
    (hold : h.old_status ≠ K.NVSHM_IPC_READY)
    (hC : C.preserves (fun h => h.configured))
    (hall : ∀ mem ∈ mems, ipc_check mem.mailbox (mem.mailbox &&& 0xFFFF) = 0
      ∧ mem.conf.version = K.NVSHM_CONFIG_VERSION) :
    process_only_configured K C mems h :=
  process_only_configured_inv K C hC mems h (fun e => absurd e hold) hall

/-- The valid words `READY`, `READY`, `BOOT_FW_REQ`, `READY`, `READY` from `h0`. -/
theorem process_only_configured_of_valid_witness :
    h0.configured = 0 ∧ h0.old_status ≠ K0.NVSHM_IPC_READY
    ∧ C0.preserves (fun h => h.configured)
    ∧ process_only_configured K0 C0
        [⟨0xFFFE0001, conf0⟩, ⟨0xFFFE0001, conf0⟩, ⟨0xFFFD0002, conf0⟩,
         ⟨0xFFFE0001, conf0⟩, ⟨0xFFFE0001, conf0⟩] h0
    ∧ Call.nvshm_process_queue ∈ (ipc_runs K0 C0
        [⟨0xFFFE0001, conf0⟩, ⟨0xFFFE0001, conf0⟩, ⟨0xFFFD0002, conf0⟩,
         ⟨0xFFFE0001, conf0⟩, ⟨0xFFFE0001, conf0⟩] ⟨h0, []⟩).trace :=
  ⟨by decide, by decide, C0_preserves_configured,
   process_only_configured_of_valid K0 C0 _ h0 (by decide) C0_preserves_configured
     (by decide),
   by decide⟩

/-- The calls recorded before a run do not influence it. -/
theorem ipc_work_trace_append (K : Defs) (C : Collab) (mem : shmem) (h : nvshm_handle)
    (t : List Call) :
    ipc_work K C mem ⟨h, t⟩
      = ⟨(ipc_work K C mem ⟨h, []⟩).handle, t ++ (ipc_work K C mem ⟨h, []⟩).trace⟩ := by
  unfold ipc_work cleanup_interfaces init_interfaces call_readconfig
  simp only [State.call, State.set_old_status]
  split_ifs <;> simp

/-- One run over a word that is corrupt or carries `READY`, `BOOT_FW_REQ` or
`BOOT_RESTART_FW_REQ` keeps: a configured handle has `READY` as its last command. -/
theorem ipc_work_configured_ready_inv (K : Defs) (C : Collab) (mem : shmem)
    (h : nvshm_handle)
    (hC : C.preserves (fun h => h.configured))
    (hword : ipc_check mem.mailbox (mem.mailbox &&& 0xFFFF) ≠ 0
      ∨ mem.mailbox &&& 0xFFFF = K.NVSHM_IPC_READY
      ∨ mem.mailbox &&& 0xFFFF = K.NVSHM_IPC_BOOT_FW_REQ
      ∨ mem.mailbox &&& 0xFFFF = K.NVSHM_IPC_BOOT_RESTART_FW_REQ) :
    (ipc_work K C mem ⟨h, []⟩).handle.configured ≠ 0 →
      (ipc_work K C mem ⟨h, []⟩).handle.old_status = K.NVSHM_IPC_READY := by
  obtain ⟨cbad, cfw, -, -⟩ := ipc_work_configured K C mem h hC
  intro hc
  by_cases hok : ipc_check mem.mailbox (mem.mailbox &&& 0xFFFF) = 0
  · by_cases hcmd : mem.mailbox &&& 0xFFFF = K.NVSHM_IPC_READY
    · by_cases hold : h.old_status = K.NVSHM_IPC_READY
      · rw [ipc_work_ready_hot K C mem ⟨h, []⟩ hok hcmd hold]; rfl
      · rw [ipc_work_ready_cold K C mem ⟨h, []⟩ hok hcmd hold]; rfl
    · have hfw : mem.mailbox &&& 0xFFFF = K.NVSHM_IPC_BOOT_FW_REQ
          ∨ mem.mailbox &&& 0xFFFF = K.NVSHM_IPC_BOOT_RESTART_FW_REQ := by
        rcases hword with e | e | e
        · exact absurd hok e
        · exact absurd e hcmd
        · exact e
      exact absurd (cfw hok hfw) hc
  · exact absurd (cbad hok) hc

theorem negotiation_only_unconfigured_inv (K : Defs) (C : Collab)
    (hC : C.preserves (fun h => h.configured)) (mems : List shmem) :
    ∀ h : nvshm_handle,
    (h.configured ≠ 0 → h.old_status = K.NVSHM_IPC_READY) →
    (∀ mem ∈ mems, ipc_check mem.mailbox (mem.mailbox &&& 0xFFFF) ≠ 0
      ∨ mem.mailbox &&& 0xFFFF = K.NVSHM_IPC_READY
      ∨ mem.mailbox &&& 0xFFFF = K.NVSHM_IPC_BOOT_FW_REQ
      ∨ mem.mailbox &&& 0xFFFF = K.NVSHM_IPC_BOOT_RESTART_FW_REQ) →
    negotiation_only_unconfigured K C mems h := by
  induction mems with
  | nil => intro h _ _; trivial
  | cons mem mems ih =>
    intro h hinv hall
    refine ⟨fun hn => ?_,
      ih _ (ipc_work_configured_ready_inv K C mem h hC (hall mem (List.mem_cons_self _ _)))
        (fun m hm => hall m (List.mem_cons_of_mem _ hm))⟩
    have hcold := ((negotiation_mem_trace_iff K C mem h).mp hn).2.2
    by_contra hc
    exact hcold (hinv hc)

/-! ## Calls that are never repeated without a call between them -/

theorem foldl_flag_none (a b : Call) (t : List Call) :
    t.foldl (flag_step a b) none = none := by
  induction t with
  | nil => rfl
  | cons e t ih => exact ih

/-- While `b` does not come, the scan started after an `a` stays there or fails. -/
theorem foldl_flag_up (a b : Call) (mid : List Call) (hb : b ∉ mid) :
    mid.foldl (flag_step a b) (some true) = some true
    ∨ mid.foldl (flag_step a b) (some true) = none := by
  induction mid with
  | nil => exact Or.inl rfl
  | cons e mid ih =>
    have hne : e ≠ b := fun h => hb (h ▸ List.mem_cons_self _ _)
    have hmid : b ∉ mid := fun h => hb (List.mem_cons_of_mem _ h)
    rw [List.foldl_cons]
    by_cases hea : e = a
    · right
      have : flag_step a b (some true) e = none := by simp [flag_step, hea]
      rw [this]
      exact foldl_flag_none a b mid
    · have : flag_step a b (some true) e = some true := by simp [flag_step, hea, hne]
      rw [this]
      exact ih hmid

/-- A trace that the scan accepts has a `b` between any two `a`. -/
theorem never_twice_of_flag (a b : Call) (t : List Call) (up0 : Bool)
    (hacc : t.foldl (flag_step a b) (some up0) ≠ none) : never_twice_without a b t := by
  intro pre mid post ht
  by_contra hb
  apply hacc
  rw [ht, List.foldl_append, List.foldl_cons, List.foldl_append, List.foldl_cons]
  cases hpre : pre.foldl (flag_step a b) (some up0) with
  | none =>
    show List.foldl (flag_step a b) (flag_step a b (List.foldl (flag_step a b)
      (flag_step a b none a) mid) a) post = none
    have h1 : flag_step a b none a = none := rfl
    rw [h1, foldl_flag_none, h1, foldl_flag_none]
  | some u =>
    cases u with
    | true =>
      have h1 : flag_step a b (some true) a = none := by simp [flag_step]
      have h2 : flag_step a b none a = none := rfl
      rw [h1, foldl_flag_none, h2, foldl_flag_none]
    | false =>
      have h1 : flag_step a b (some false) a = some true := by simp [flag_step]
      have h2 : flag_step a b none a = none := rfl
      have h3 : flag_step a b (some true) a = none := by simp [flag_step]
      rw [h1]
      rcases foldl_flag_up a b mid hb with e | e
      · rw [e, h3, foldl_flag_none]
      · rw [e, h2, foldl_flag_none]

/-- The counters depend on the channel table only. -/
theorem count_channels_congr (K : Defs) (h g : nvshm_handle) (e : h.chan = g.chan) :
    count_channels K h = count_channels K g := by
  unfold count_channels
  rw [e]

/-- The state that `init_interfaces` leaves. -/
theorem init_interfaces_eq (K : Defs) (C : Collab) (s : State) :
    (init_interfaces K C s).trace
      = s.trace ++ Call.init_interfaces :: adapter_init_calls (count_channels K s.handle)
    ∧ (C.preserves (fun g => g.chan) → (init_interfaces K C s).handle.chan = s.handle.chan) := by
  constructor
  · unfold init_interfaces adapter_init_calls
    simp only [State.call]
    split_ifs <;> simp
  · intro hC
    obtain ⟨-, -, -, -, p5, p6, -, -⟩ := Collab.preserves_mem hC
    unfold init_interfaces
    simp only [State.call]
    split_ifs <;> simp [p5, p6]

/-- The calls that `cleanup_interfaces` makes. -/
theorem cleanup_interfaces_eq (K : Defs) (C : Collab) (s : State) :
    (cleanup_interfaces K C s).trace
      = s.trace ++ Call.cleanup_interfaces ::
          adapter_cleanup_calls (count_channels K s.handle) := by
  have hcc : count_channels K { s.handle with configured := 0 }
      = count_channels K s.handle := rfl
  unfold cleanup_interfaces adapter_cleanup_calls
  simp only [State.call, hcc]
  split_ifs <;> simp


/-- The four values of `adapter_init_calls`. -/
theorem adapter_init_calls_cases (n : chan_counts) :
    (n.ntty ≠ 0 ∧ n.nnet ≠ 0
      ∧ adapter_init_calls n = [Call.nvshm_tty_init, Call.nvshm_net_init])
    ∨ (n.ntty ≠ 0 ∧ n.nnet = 0 ∧ adapter_init_calls n = [Call.nvshm_tty_init])
    ∨ (n.ntty = 0 ∧ n.nnet ≠ 0 ∧ adapter_init_calls n = [Call.nvshm_net_init])
    ∨ (n.ntty = 0 ∧ n.nnet = 0 ∧ adapter_init_calls n = []) := by
  unfold adapter_init_calls
  by_cases h1 : n.ntty = 0 <;> by_cases h2 : n.nnet = 0 <;> simp [h1, h2]

/-- The four values of `adapter_cleanup_calls`. -/
theorem adapter_cleanup_calls_cases (n : chan_counts) :
    (n.ntty ≠ 0 ∧ n.nnet ≠ 0
      ∧ adapter_cleanup_calls n = [Call.nvshm_tty_cleanup, Call.nvshm_net_cleanup])
    ∨ (n.ntty ≠ 0 ∧ n.nnet = 0 ∧ adapter_cleanup_calls n = [Call.nvshm_tty_cleanup])
    ∨ (n.ntty = 0 ∧ n.nnet ≠ 0 ∧ adapter_cleanup_calls n = [Call.nvshm_net_cleanup])
    ∨ (n.ntty = 0 ∧ n.nnet = 0 ∧ adapter_cleanup_calls n = []) := by
  unfold adapter_cleanup_calls
  by_cases h1 : n.ntty = 0 <;> by_cases h2 : n.nnet = 0 <;> simp [h1, h2]

/-- The four shapes of a run over a word that is corrupt or carries `READY`,
`BOOT_FW_REQ` or `BOOT_RESTART_FW_REQ`, with a block of the supported version, from a
handle that is unconfigured unless its last command is `READY`: no call, the queue
processing, the teardown, or the negotiation. -/
theorem ipc_work_shape (K : Defs) (C : Collab) (mem : shmem) (h : nvshm_handle)
    (hC : C.preserves (fun h => h.configured))
    (hword : ipc_check mem.mailbox (mem.mailbox &&& 0xFFFF) ≠ 0
      ∨ mem.mailbox &&& 0xFFFF = K.NVSHM_IPC_READY
      ∨ mem.mailbox &&& 0xFFFF = K.NVSHM_IPC_BOOT_FW_REQ
      ∨ mem.mailbox &&& 0xFFFF = K.NVSHM_IPC_BOOT_RESTART_FW_REQ)
    (hv : mem.conf.version = K.NVSHM_CONFIG_VERSION)
    (hinv : h.configured ≠ 0 → h.old_status = K.NVSHM_IPC_READY) :
    ((ipc_work K C mem ⟨h, []⟩).trace = []
      ∧ (ipc_work K C mem ⟨h, []⟩).handle.configured = h.configured
      ∧ (ipc_work K C mem ⟨h, []⟩).handle.chan = h.chan)
    ∨ ((ipc_work K C mem ⟨h, []⟩).trace = [Call.nvshm_process_queue]
      ∧ (ipc_work K C mem ⟨h, []⟩).handle.configured = h.configured
      ∧ (C.preserves (fun g => g.chan) → (ipc_work K C mem ⟨h, []⟩).handle.chan = h.chan))
    ∨ ((ipc_work K C mem ⟨h, []⟩).trace
        = Call.nvshm_abort_queue :: Call.cleanup_interfaces ::
            adapter_cleanup_calls (count_channels K (C.nvshm_abort_queue h))
      ∧ (ipc_work K C mem ⟨h, []⟩).handle.configured = 0)
    ∨ (h.configured = 0
      ∧ (ipc_work K C mem ⟨h, []⟩).handle.configured = 1
      ∧ ∃ n : chan_counts, (ipc_work K C mem ⟨h, []⟩).trace
          = [Call.ipc_readconfig, Call.nvshm_iobuf_init, Call.nvshm_init_queue,
              Call.init_interfaces] ++ adapter_init_calls n
        ∧ (C.preserves (fun g => g.chan) →
            count_channels K (ipc_work K C mem ⟨h, []⟩).handle = n)) := by
  obtain ⟨cbad, cfw, chot, ccold⟩ := ipc_work_configured K C mem h hC
  have hteardown : (cleanup_interfaces K C
        ((⟨h, []⟩ : State).call Call.nvshm_abort_queue C.nvshm_abort_queue)).trace
      = Call.nvshm_abort_queue :: Call.cleanup_interfaces ::
          adapter_cleanup_calls (count_channels K (C.nvshm_abort_queue h)) := by
    rw [cleanup_interfaces_eq]
    rfl
  by_cases hok : ipc_check mem.mailbox (mem.mailbox &&& 0xFFFF) = 0
  · by_cases hcmd : mem.mailbox &&& 0xFFFF = K.NVSHM_IPC_READY
    · by_cases hold : h.old_status = K.NVSHM_IPC_READY
      · right; left
        refine ⟨?_, chot hok hcmd hold, fun hch => ?_⟩
        · rw [ipc_work_ready_hot K C mem ⟨h, []⟩ hok hcmd hold]
          rfl
        · rw [ipc_work_ready_hot K C mem ⟨h, []⟩ hok hcmd hold]
          exact (Collab.preserves_mem hch).2.1 h
      · right; right; right
        have hc0 : h.configured = 0 := by
          by_contra hc
          exact hold (hinv hc)
        refine ⟨hc0, ccold hok hcmd hold hv,
          count_channels K (((call_readconfig K mem ⟨h, []⟩).call Call.nvshm_iobuf_init
            C.nvshm_iobuf_init).call Call.nvshm_init_queue C.nvshm_init_queue).handle,
          ?_, fun hch => ?_⟩
        · rw [ipc_work_ready_cold K C mem ⟨h, []⟩ hok hcmd hold]
          simp only [State.set_old_status]
          rw [(init_interfaces_eq K C _).1]
          rfl
        · rw [ipc_work_ready_cold K C mem ⟨h, []⟩ hok hcmd hold]
          apply count_channels_congr
          simp only [State.set_old_status]
          exact (init_interfaces_eq K C _).2 hch
    · have hfw : mem.mailbox &&& 0xFFFF = K.NVSHM_IPC_BOOT_FW_REQ
          ∨ mem.mailbox &&& 0xFFFF = K.NVSHM_IPC_BOOT_RESTART_FW_REQ := by
        rcases hword with e | e | e
        · exact absurd hok e
        · exact absurd e hcmd
        · exact e
      by_cases hc : h.configured ≠ 0
      · right; right; left
        refine ⟨?_, cfw hok hfw⟩
        rw [ipc_work_fw_req_branch K C mem ⟨h, []⟩ hok hfw, if_pos hc]
        exact hteardown
      · left
        rw [ipc_work_fw_req_branch K C mem ⟨h, []⟩ hok hfw, if_neg hc]
        exact ⟨rfl, rfl, rfl⟩
  · by_cases hc : h.configured ≠ 0
    · right; right; left
      refine ⟨?_, cbad hok⟩
      rw [ipc_work_corrupt_branch K C mem ⟨h, []⟩ hok, if_pos hc]
      exact hteardown
    · left
      rw [ipc_work_corrupt_branch K C mem ⟨h, []⟩ hok, if_neg hc]
      exact ⟨rfl, rfl, rfl⟩

/-- The scan for a negotiation call `a` and a teardown call `b` over one run of one of
the four shapes: it does not fail, and it is past an `a` only on a configured handle. -/
theorem shape_flag_teardown (a b : Call)
    (ha : a ∈ [Call.ipc_readconfig, Call.init_interfaces, Call.nvshm_tty_init,
      Call.nvshm_net_init])
    (hb : b ∈ [Call.nvshm_abort_queue, Call.cleanup_interfaces])
    (tr : List Call) (c c2 : Nat) (up : Bool)
    (hup : up = true → c ≠ 0)
    (hshape : (tr = [] ∧ c2 = c)
      ∨ (tr = [Call.nvshm_process_queue] ∧ c2 = c)
      ∨ (∃ n, tr = Call.nvshm_abort_queue :: Call.cleanup_interfaces ::
            adapter_cleanup_calls n ∧ c2 = 0)
      ∨ (c = 0 ∧ c2 = 1 ∧ ∃ n, tr = [Call.ipc_readconfig, Call.nvshm_iobuf_init,
            Call.nvshm_init_queue, Call.init_interfaces] ++ adapter_init_calls n)) :
    ∃ up2 : Bool, tr.foldl (flag_step a b) (some up) = some up2
      ∧ (up2 = true → c2 ≠ 0) := by
  simp only [List.mem_cons, List.mem_singleton, List.not_mem_nil, or_false] at ha hb
  rcases hshape with ⟨e, ec⟩ | ⟨e, ec⟩ | ⟨n, e, ec⟩ | ⟨ec0, ec, n, e⟩
  · subst e ec
    exact ⟨up, rfl, hup⟩
  · subst e ec
    refine ⟨up, ?_, hup⟩
    rcases ha with rfl | rfl | rfl | rfl <;> rcases hb with rfl | rfl <;> rfl
  · subst e ec
    refine ⟨false, ?_, fun e => Bool.noConfusion e⟩
    rcases adapter_cleanup_calls_cases n with ⟨-, -, e⟩ | ⟨-, -, e⟩ | ⟨-, -, e⟩ | ⟨-, -, e⟩ <;>
      rw [e] <;>
      rcases ha with rfl | rfl | rfl | rfl <;> rcases hb with rfl | rfl <;>
      cases up <;> rfl
  · subst e ec
    have hupf : up = false := by
      cases up
      · rfl
      · exact absurd ec0 (hup rfl)
    subst hupf
    rcases adapter_init_calls_cases n with ⟨-, -, e⟩ | ⟨-, -, e⟩ | ⟨-, -, e⟩ | ⟨-, -, e⟩ <;>
      rw [e] <;>
      rcases ha with rfl | rfl | rfl | rfl <;> rcases hb with rfl | rfl <;>
      first
        | exact ⟨true, rfl, fun _ => by decide⟩
        | exact ⟨false, rfl, fun _ => by decide⟩


/-- The scan for `nvshm_tty_init` and `nvshm_tty_cleanup` over one run of one of the
four shapes: it does not fail, and it is past a `nvshm_tty_init` only on a configured
handle whose table has a terminal channel. -/
theorem shape_flag_tty (tr : List Call) (c c2 nt nt2 : Nat) (up : Bool)
    (hup : up = true → c ≠ 0 ∧ nt ≠ 0)
    (hshape : (tr = [] ∧ c2 = c ∧ nt2 = nt)
      ∨ (tr = [Call.nvshm_process_queue] ∧ c2 = c ∧ nt2 = nt)
      ∨ (∃ n : chan_counts, tr = Call.nvshm_abort_queue :: Call.cleanup_interfaces ::
            adapter_cleanup_calls n ∧ n.ntty = nt ∧ c2 = 0)
      ∨ (c = 0 ∧ c2 = 1 ∧ ∃ n : chan_counts, tr = [Call.ipc_readconfig,
            Call.nvshm_iobuf_init, Call.nvshm_init_queue, Call.init_interfaces]
            ++ adapter_init_calls n ∧ nt2 = n.ntty)) :
    ∃ up2 : Bool,
      tr.foldl (flag_step Call.nvshm_tty_init Call.nvshm_tty_cleanup) (some up) = some up2
      ∧ (up2 = true → c2 ≠ 0 ∧ nt2 ≠ 0) := by
  rcases hshape with ⟨e, ec, en⟩ | ⟨e, ec, en⟩ | ⟨n, e, en, ec⟩ | ⟨ec0, ec, n, e, en⟩
  · subst e ec en
    exact ⟨up, rfl, hup⟩
  · subst e ec en
    exact ⟨up, rfl, hup⟩
  · subst e ec en
    refine ⟨false, ?_, fun e => Bool.noConfusion e⟩
    rcases adapter_cleanup_calls_cases n with ⟨-, -, e⟩ | ⟨-, -, e⟩ | ⟨h1, -, e⟩ | ⟨h1, -, e⟩
    · rw [e]; cases up <;> rfl
    · rw [e]; cases up <;> rfl
    · have hupf : up = false := by
        cases up
        · rfl
        · exact absurd h1 (hup rfl).2
      rw [e, hupf]; rfl
    · have hupf : up = false := by
        cases up
        · rfl
        · exact absurd h1 (hup rfl).2
      rw [e, hupf]; rfl
  · subst e ec en
    have hupf : up = false := by
      cases up
      · rfl
      · exact absurd ec0 (hup rfl).1
    subst hupf
    rcases adapter_init_calls_cases n with ⟨h1, -, e⟩ | ⟨h1, -, e⟩ | ⟨-, -, e⟩ | ⟨-, -, e⟩
    · rw [e]; exact ⟨true, rfl, fun _ => ⟨by decide, h1⟩⟩
    · rw [e]; exact ⟨true, rfl, fun _ => ⟨by decide, h1⟩⟩
    · rw [e]; exact ⟨false, rfl, fun e => Bool.noConfusion e⟩
    · rw [e]; exact ⟨false, rfl, fun e => Bool.noConfusion e⟩

/-- The same for `nvshm_net_init` and `nvshm_net_cleanup`. -/
theorem shape_flag_net (tr : List Call) (c c2 nt nt2 : Nat) (up : Bool)
    (hup : up = true → c ≠ 0 ∧ nt ≠ 0)
    (hshape : (tr = [] ∧ c2 = c ∧ nt2 = nt)
      ∨ (tr = [Call.nvshm_process_queue] ∧ c2 = c ∧ nt2 = nt)
      ∨ (∃ n : chan_counts, tr = Call.nvshm_abort_queue :: Call.cleanup_interfaces ::
            adapter_cleanup_calls n ∧ n.nnet = nt ∧ c2 = 0)
      ∨ (c = 0 ∧ c2 = 1 ∧ ∃ n : chan_counts, tr = [Call.ipc_readconfig,
            Call.nvshm_iobuf_init, Call.nvshm_init_queue, Call.init_interfaces]
            ++ adapter_init_calls n ∧ nt2 = n.nnet)) :
    ∃ up2 : Bool,
      tr.foldl (flag_step Call.nvshm_net_init Call.nvshm_net_cleanup) (some up) = some up2
      ∧ (up2 = true → c2 ≠ 0 ∧ nt2 ≠ 0) := by
  rcases hshape with ⟨e, ec, en⟩ | ⟨e, ec, en⟩ | ⟨n, e, en, ec⟩ | ⟨ec0, ec, n, e, en⟩
  · subst e ec en
    exact ⟨up, rfl, hup⟩
  · subst e ec en
    exact ⟨up, rfl, hup⟩
  · subst e ec en
    refine ⟨false, ?_, fun e => Bool.noConfusion e⟩
    rcases adapter_cleanup_calls_cases n with ⟨-, -, e⟩ | ⟨-, h1, e⟩ | ⟨-, -, e⟩ | ⟨-, h1, e⟩
    · rw [e]; cases up <;> rfl
    · have hupf : up = false := by
        cases up
        · rfl
        · exact absurd h1 (hup rfl).2
      rw [e, hupf]; rfl
    · rw [e]; cases up <;> rfl
    · have hupf : up = false := by
        cases up
        · rfl
        · exact absurd h1 (hup rfl).2
      rw [e, hupf]; rfl
  · subst e ec en
    have hupf : up = false := by
      cases up
      · rfl
      · exact absurd ec0 (hup rfl).1
    subst hupf
    rcases adapter_init_calls_cases n with ⟨-, h1, e⟩ | ⟨-, -, e⟩ | ⟨-, h1, e⟩ | ⟨-, -, e⟩
    · rw [e]; exact ⟨true, rfl, fun _ => ⟨by decide, h1⟩⟩
    · rw [e]; exact ⟨false, rfl, fun e => Bool.noConfusion e⟩
    · rw [e]; exact ⟨true, rfl, fun _ => ⟨by decide, h1⟩⟩
    · rw [e]; exact ⟨false, rfl, fun e => Bool.noConfusion e⟩

/-- The scan over consecutive runs: it does not fail if it does not fail in any run
from a state that satisfies the invariants `I` (of the flag and the handle) and `J`. -/
theorem flag_runs (K : Defs) (C : Collab) (a b : Call)
    (I : Bool → nvshm_handle → Prop) (J : nvshm_handle → Prop) (Ok : shmem → Prop)
    (hJ : ∀ mem h, Ok mem → J h → J (ipc_work K C mem ⟨h, []⟩).handle)
    (hstep : ∀ mem h up, Ok mem → J h → I up h →
      ∃ up2 : Bool,
        (ipc_work K C mem ⟨h, []⟩).trace.foldl (flag_step a b) (some up) = some up2
        ∧ I up2 (ipc_work K C mem ⟨h, []⟩).handle)
    (mems : List shmem) :
    ∀ (h : nvshm_handle) (t : List Call) (up : Bool),
    t.foldl (flag_step a b) (some false) = some up → I up h → J h →
    (∀ mem ∈ mems, Ok mem) →
    (ipc_runs K C mems ⟨h, t⟩).trace.foldl (flag_step a b) (some false) ≠ none := by
  induction mems with
  | nil =>
    intro h t up ht _ _ _
    simp only [ipc_runs, List.foldl_nil, ht]
    exact fun e => Option.noConfusion e
  | cons mem mems ih =>
    intro h t up ht hI hJh hall
    have hok := hall mem (List.mem_cons_self _ _)
    obtain ⟨up2, hfold, hI2⟩ := hstep mem h up hok hJh hI
    have hrun : ipc_runs K C (mem :: mems) ⟨h, t⟩
        = ipc_runs K C mems ⟨(ipc_work K C mem ⟨h, []⟩).handle,
            t ++ (ipc_work K C mem ⟨h, []⟩).trace⟩ := by
      have : ipc_runs K C (mem :: mems) ⟨h, t⟩
          = ipc_runs K C mems (ipc_work K C mem ⟨h, t⟩) := rfl
      rw [this, ipc_work_trace_append]
    rw [hrun]
    exact ih _ _ up2 (by rw [List.foldl_append, ht, hfold]) hI2 (hJ mem h hok hJh)
      (fun m hm => hall m (List.mem_cons_of_mem _ hm))

/-- Over the restricted words and blocks of the supported version, from an unconfigured
handle: no negotiation call is repeated without a teardown call between, and no adapter
init without the cleanup of that adapter (the collaborators not writing the table). -/
theorem never_twice_runs (K : Defs) (C : Collab) (mems : List shmem) (h : nvshm_handle)
    (hconf : h.configured = 0)
    (hC : C.preserves (fun h => h.configured))
    (hall : ∀ mem ∈ mems, (ipc_check mem.mailbox (mem.mailbox &&& 0xFFFF) ≠ 0
      ∨ mem.mailbox &&& 0xFFFF = K.NVSHM_IPC_READY
      ∨ mem.mailbox &&& 0xFFFF = K.NVSHM_IPC_BOOT_FW_REQ
      ∨ mem.mailbox &&& 0xFFFF = K.NVSHM_IPC_BOOT_RESTART_FW_REQ)
      ∧ mem.conf.version = K.NVSHM_CONFIG_VERSION) :
    (∀ a ∈ [Call.ipc_readconfig, Call.init_interfaces, Call.nvshm_tty_init,
        Call.nvshm_net_init],
      ∀ b ∈ [Call.nvshm_abort_queue, Call.cleanup_interfaces],
        never_twice_without a b (ipc_runs K C mems ⟨h, []⟩).trace)
    ∧ (C.preserves (fun g => g.chan) →
        never_twice_without Call.nvshm_tty_init Call.nvshm_tty_cleanup
          (ipc_runs K C mems ⟨h, []⟩).trace
        ∧ never_twice_without Call.nvshm_net_init Call.nvshm_net_cleanup
          (ipc_runs K C mems ⟨h, []⟩).trace) := by
  have hJ : ∀ mem g,
      ((ipc_check mem.mailbox (mem.mailbox &&& 0xFFFF) ≠ 0
        ∨ mem.mailbox &&& 0xFFFF = K.NVSHM_IPC_READY
        ∨ mem.mailbox &&& 0xFFFF = K.NVSHM_IPC_BOOT_FW_REQ
        ∨ mem.mailbox &&& 0xFFFF = K.NVSHM_IPC_BOOT_RESTART_FW_REQ)
        ∧ mem.conf.version = K.NVSHM_CONFIG_VERSION) →
      (g.configured ≠ 0 → g.old_status = K.NVSHM_IPC_READY) →
      ((ipc_work K C mem ⟨g, []⟩).handle.configured ≠ 0 →
        (ipc_work K C mem ⟨g, []⟩).handle.old_status = K.NVSHM_IPC_READY) :=
    fun mem g hok _ => ipc_work_configured_ready_inv K C mem g hC hok.1
  refine ⟨fun a ha b hb => ?_, fun hch => ⟨?_, ?_⟩⟩
  · apply never_twice_of_flag a b _ false
    refine flag_runs K C a b (fun up g => up = true → g.configured ≠ 0)
      (fun g => g.configured ≠ 0 → g.old_status = K.NVSHM_IPC_READY) _ hJ ?_ mems h []
      false rfl (fun e => Bool.noConfusion e) (fun hc => absurd hconf hc) hall
    intro mem g up hok hJg hI
    apply shape_flag_teardown a b ha hb _ g.configured _ up hI
    rcases ipc_work_shape K C mem g hC hok.1 hok.2 hJg with
      ⟨e1, e2, -⟩ | ⟨e1, e2, -⟩ | ⟨e1, e2⟩ | ⟨e0, e2, n, e1, -⟩
    · exact Or.inl ⟨e1, e2⟩
    · exact Or.inr (Or.inl ⟨e1, e2⟩)
    · exact Or.inr (Or.inr (Or.inl ⟨_, e1, e2⟩))
    · exact Or.inr (Or.inr (Or.inr ⟨e0, e2, n, e1⟩))
  · apply never_twice_of_flag _ _ _ false
    refine flag_runs K C _ _
      (fun up g => up = true → g.configured ≠ 0 ∧ (count_channels K g).ntty ≠ 0)
      (fun g => g.configured ≠ 0 → g.old_status = K.NVSHM_IPC_READY) _ hJ ?_ mems h []
      false rfl (fun e => Bool.noConfusion e) (fun hc => absurd hconf hc) hall
    intro mem g up hok hJg hI
    apply shape_flag_tty _ g.configured _ (count_channels K g).ntty _ up hI
    rcases ipc_work_shape K C mem g hC hok.1 hok.2 hJg with
      ⟨e1, e2, e3⟩ | ⟨e1, e2, e3⟩ | ⟨e1, e2⟩ | ⟨e0, e2, n, e1, e3⟩
    · exact Or.inl ⟨e1, e2, by rw [count_channels_congr K _ g e3]⟩
    · exact Or.inr (Or.inl ⟨e1, e2, by rw [count_channels_congr K _ g (e3 hch)]⟩)
    · exact Or.inr (Or.inr (Or.inl ⟨_, e1,
        by rw [count_channels_congr K _ g ((Collab.preserves_mem hch).1 g)], e2⟩))
    · exact Or.inr (Or.inr (Or.inr ⟨e0, e2, n, e1, by rw [e3 hch]⟩))
  · apply never_twice_of_flag _ _ _ false
    refine flag_runs K C _ _
      (fun up g => up = true → g.configured ≠ 0 ∧ (count_channels K g).nnet ≠ 0)
      (fun g => g.configured ≠ 0 → g.old_status = K.NVSHM_IPC_READY) _ hJ ?_ mems h []
      false rfl (fun e => Bool.noConfusion e) (fun hc => absurd hconf hc) hall
    intro mem g up hok hJg hI
    apply shape_flag_net _ g.configured _ (count_channels K g).nnet _ up hI
    rcases ipc_work_shape K C mem g hC hok.1 hok.2 hJg with
      ⟨e1, e2, e3⟩ | ⟨e1, e2, e3⟩ | ⟨e1, e2⟩ | ⟨e0, e2, n, e1, e3⟩
    · exact Or.inl ⟨e1, e2, by rw [count_channels_congr K _ g e3]⟩
    · exact Or.inr (Or.inl ⟨e1, e2, by rw [count_channels_congr K _ g (e3 hch)]⟩)
    · exact Or.inr (Or.inr (Or.inl ⟨_, e1,
        by rw [count_channels_congr K _ g ((Collab.preserves_mem hch).1 g)], e2⟩))
    · exact Or.inr (Or.inr (Or.inr ⟨e0, e2, n, e1, by rw [e3 hch]⟩))


/-- C19 as stated fails: from the unconfigured sample handle `h0`, the words `READY`
(negotiation), `0xEFFF1000` (a boot error: logged, no teardown, `old_status` becomes
`0x1000`) and `READY` again: the third run starts with `configured == 1` and makes a
second fresh negotiation; `init_interfaces` and `nvshm_tty_init` are called twice with
no `nvshm_abort_queue`, `cleanup_interfaces` or `nvshm_tty_cleanup` between. -/
theorem negotiation_twice_without_teardown :
    h0.configured = 0
    ∧ (ipc_runs K0 C0 [⟨0xFFFE0001, conf0⟩, ⟨0xEFFF1000, conf0⟩] ⟨h0, []⟩).handle.configured
        = 1
    ∧ (ipc_runs K0 C0 [⟨0xFFFE0001, conf0⟩, ⟨0xEFFF1000, conf0⟩, ⟨0xFFFE0001, conf0⟩]
        ⟨h0, []⟩).trace
        = [Call.ipc_readconfig, Call.nvshm_iobuf_init, Call.nvshm_init_queue,
           Call.init_interfaces, Call.nvshm_tty_init, Call.nvshm_net_init,
           Call.ipc_readconfig, Call.nvshm_iobuf_init, Call.nvshm_init_queue,
           Call.init_interfaces, Call.nvshm_tty_init, Call.nvshm_net_init]
    ∧ ¬ negotiation_only_unconfigured K0 C0
        [⟨0xFFFE0001, conf0⟩, ⟨0xEFFF1000, conf0⟩, ⟨0xFFFE0001, conf0⟩] h0
    ∧ ¬ never_twice_without Call.init_interfaces Call.nvshm_abort_queue (ipc_runs K0 C0
        [⟨0xFFFE0001, conf0⟩, ⟨0xEFFF1000, conf0⟩, ⟨0xFFFE0001, conf0⟩] ⟨h0, []⟩).trace
    ∧ ¬ never_twice_without Call.init_interfaces Call.cleanup_interfaces (ipc_runs K0 C0
        [⟨0xFFFE0001, conf0⟩, ⟨0xEFFF1000, conf0⟩, ⟨0xFFFE0001, conf0⟩] ⟨h0, []⟩).trace
    ∧ ¬ never_twice_without Call.nvshm_tty_init Call.nvshm_tty_cleanup (ipc_runs K0 C0
        [⟨0xFFFE0001, conf0⟩, ⟨0xEFFF1000, conf0⟩, ⟨0xFFFE0001, conf0⟩] ⟨h0, []⟩).trace := by
  refine ⟨by decide, by decide, by decide, fun hp => ?_, fun hp => ?_, fun hp => ?_,
    fun hp => ?_⟩
  · simp only [negotiation_only_unconfigured] at hp
    exact absurd (hp.2.2.1 (Or.inl (by decide))) (by decide)
  · exact absurd (hp [Call.ipc_readconfig, Call.nvshm_iobuf_init, Call.nvshm_init_queue]
      [Call.nvshm_tty_init, Call.nvshm_net_init, Call.ipc_readconfig,
        Call.nvshm_iobuf_init, Call.nvshm_init_queue]
      [Call.nvshm_tty_init, Call.nvshm_net_init] (by decide)) (by decide)
  · exact absurd (hp [Call.ipc_readconfig, Call.nvshm_iobuf_init, Call.nvshm_init_queue]
      [Call.nvshm_tty_init, Call.nvshm_net_init, Call.ipc_readconfig,
        Call.nvshm_iobuf_init, Call.nvshm_init_queue]
      [Call.nvshm_tty_init, Call.nvshm_net_init] (by decide)) (by decide)
  · exact absurd (hp [Call.ipc_readconfig, Call.nvshm_iobuf_init, Call.nvshm_init_queue,
        Call.init_interfaces]
      [Call.nvshm_net_init, Call.ipc_readconfig, Call.nvshm_iobuf_init,
        Call.nvshm_init_queue, Call.init_interfaces]
      [Call.nvshm_net_init] (by decide)) (by decide)

/-- C19, amended: in every sequence of runs over words that fail the integrity check or
carry `READY`, `BOOT_FW_REQ` or `BOOT_RESTART_FW_REQ`, from a handle with
`configured == 0`, a fresh negotiation is made only in a run that starts with
`configured == 0`.  When moreover every configuration block read has the supported
version, between two fresh negotiations (two calls of `ipc_readconfig`, of
`init_interfaces`, of `nvshm_tty_init` or of `nvshm_net_init`) there is always a
teardown, a call of `nvshm_abort_queue` and a call of `cleanup_interfaces`; and an
adapter init is never called twice without the cleanup of that adapter between
(`nvshm_tty_cleanup` for `nvshm_tty_init`, `nvshm_net_cleanup` for `nvshm_net_init`).
The collaborators are taken not to write `configured` and, for the adapter cleanups,
not to write the channel table. -/
theorem negotiation_only_unconfigured_of_words (K : Defs) (C : Collab)
    (mems : List shmem) (h : nvshm_handle)
    (hconf : h.configured = 0)
    (hC : C.preserves (fun h => h.configured))
    (hall : ∀ mem ∈ mems, ipc_check mem.mailbox (mem.mailbox &&& 0xFFFF) ≠ 0
      ∨ mem.mailbox &&& 0xFFFF = K.NVSHM_IPC_READY
      ∨ mem.mailbox &&& 0xFFFF = K.NVSHM_IPC_BOOT_FW_REQ
      ∨ mem.mailbox &&& 0xFFFF = K.NVSHM_IPC_BOOT_RESTART_FW_REQ) :
    negotiation_only_unconfigured K C mems h
    ∧ ((∀ mem ∈ mems, mem.conf.version = K.NVSHM_CONFIG_VERSION) →
        (∀ a ∈ [Call.ipc_readconfig, Call.init_interfaces, Call.nvshm_tty_init,
            Call.nvshm_net_init],
          ∀ b ∈ [Call.nvshm_abort_queue, Call.cleanup_interfaces],
            never_twice_without a b (ipc_runs K C mems ⟨h, []⟩).trace)
        ∧ (C.preserves (fun g => g.chan) →
            never_twice_without Call.nvshm_tty_init Call.nvshm_tty_cleanup
              (ipc_runs K C mems ⟨h, []⟩).trace
            ∧ never_twice_without Call.nvshm_net_init Call.nvshm_net_cleanup
              (ipc_runs K C mems ⟨h, []⟩).trace)) :=
  ⟨negotiation_only_unconfigured_inv K C hC mems h (fun hc => absurd hconf hc) hall,
   fun hv => never_twice_runs K C mems h hconf hC (fun m hm => ⟨hall m hm, hv m hm⟩)⟩

/-- The words `READY`, `READY`, corrupt, `READY` (hot), `BOOT_FW_REQ`, `READY` from
`h0`: two negotiations, with a teardown between them. -/
theorem negotiation_only_unconfigured_of_words_witness :
    h0.configured = 0
    ∧ C0.preserves (fun h => h.configured)
    ∧ C0.preserves (fun h => h.chan)
    ∧ (ipc_runs K0 C0
        [⟨0xFFFE0001, conf0⟩, ⟨0xFFFE0001, conf0⟩, ⟨1, conf0⟩, ⟨0xFFFE0001, conf0⟩,
         ⟨0xFFFD0002, conf0⟩, ⟨0xFFFE0001, conf0⟩] ⟨h0, []⟩).trace
        = [Call.ipc_readconfig, Call.nvshm_iobuf_init, Call.nvshm_init_queue,
           Call.init_interfaces, Call.nvshm_tty_init, Call.nvshm_net_init,
           Call.nvshm_process_queue,
           Call.nvshm_abort_queue, Call.cleanup_interfaces, Call.nvshm_tty_cleanup,
           Call.nvshm_net_cleanup,
           Call.nvshm_process_queue,
           Call.ipc_readconfig, Call.nvshm_iobuf_init, Call.nvshm_init_queue,
           Call.init_interfaces, Call.nvshm_tty_init, Call.nvshm_net_init]
    ∧ negotiation_only_unconfigured K0 C0
        [⟨0xFFFE0001, conf0⟩, ⟨0xFFFE0001, conf0⟩, ⟨1, conf0⟩, ⟨0xFFFE0001, conf0⟩,
         ⟨0xFFFD0002, conf0⟩, ⟨0xFFFE0001, conf0⟩] h0
    ∧ never_twice_without Call.init_interfaces Call.nvshm_abort_queue (ipc_runs K0 C0
        [⟨0xFFFE0001, conf0⟩, ⟨0xFFFE0001, conf0⟩, ⟨1, conf0⟩, ⟨0xFFFE0001, conf0⟩,
         ⟨0xFFFD0002, conf0⟩, ⟨0xFFFE0001, conf0⟩] ⟨h0, []⟩).trace
    ∧ never_twice_without Call.nvshm_tty_init Call.nvshm_tty_cleanup (ipc_runs K0 C0
        [⟨0xFFFE0001, conf0⟩, ⟨0xFFFE0001, conf0⟩, ⟨1, conf0⟩, ⟨0xFFFE0001, conf0⟩,
         ⟨0xFFFD0002, conf0⟩, ⟨0xFFFE0001, conf0⟩] ⟨h0, []⟩).trace :=
  have key := negotiation_only_unconfigured_of_words K0 C0
    [⟨0xFFFE0001, conf0⟩, ⟨0xFFFE0001, conf0⟩, ⟨1, conf0⟩, ⟨0xFFFE0001, conf0⟩,
     ⟨0xFFFD0002, conf0⟩, ⟨0xFFFE0001, conf0⟩] h0 (by decide) C0_preserves_configured
    (by decide)
  ⟨by decide, C0_preserves_configured, C0_preserves_chan, by decide, key.1,
   (key.2 (by decide)).1 Call.init_interfaces (by decide) Call.nvshm_abort_queue
     (by decide),
   ((key.2 (by decide)).2 C0_preserves_chan).1⟩

end Nvshm
